import Mathlib

/-!
Verification of the derived-attribute and query engine of the perfume
tracker (src/perfume_tracker.py), shallowly embedded in Lean.

Conventions of the embedding:
* A Python vote dictionary (`Dict[str,int]`) is an association list
  `VDict = List (String × Nat)`; `dget d k` is `int(d.get(k, 0) or 0)`
  (Python dictionaries have unique keys, so an association-list lookup of
  the first matching key is faithful).
* Python floats are modelled as exact rationals `ℚ`.  Every comparison a
  claim touches involves small dyadic/decimal constants for which float
  and rational arithmetic agree (e.g. `100 * 0.6` rounds to exactly
  `60.0` in IEEE double).
* Ordered Python dictionaries (the id→value reference tables) are
  association lists kept in insertion order.
-/

/-- A Python vote dictionary: option key → count. -/
abbrev VDict := List (String × Nat)

/-- `int(votes.get(k, 0) or 0)`. -/
def dget (d : VDict) (k : String) : Nat := (d.lookup k).getD 0

/-- `", ".join(parts)` / `" | ".join(parts)`: Python `str.join`. -/
def joinSep (sep : String) : List String → String
  | [] => ""
  | [x] => x
  | x :: y :: xs => x ++ sep ++ joinSep sep (y :: xs)

/-- `display_label`: convert internal key (with underscores) to display
label (with spaces).  `key.replace("_", " ")` has a one-character
pattern, so it is exactly a character-wise map. -/
def display_label (key : String) : String :=
  String.mk (key.data.map (fun c => if c = '_' then ' ' else c))

/-- `list(dict.fromkeys(xs))`: first-seen-order de-duplication. -/
def pyDedup : List String → List String
  | [] => []
  | x :: xs => x :: pyDedup (xs.filter (fun y => y ≠ x))
termination_by l => l.length
decreasing_by
  simp only [List.length_cons]
  exact Nat.lt_succ_of_le (List.length_filter_le _ _)

/-- `RATING_5` (perfume_tracker.py line 52): declared best→worst. -/
def RATING_5 : List String := ["love", "like", "ok", "dislike", "hate"]

/-- `SEASON_TIME_6` (line 53). -/
def SEASON_TIME_6 : List String := ["spring", "summer", "fall", "winter", "day", "night"]

/-- `LONGEVITY_5` (line 54): declared best→worst. -/
def LONGEVITY_5 : List String := ["eternal", "long", "moderate", "weak", "poor"]

/-- `SILLAGE_4` (line 55). -/
def SILLAGE_4 : List String := ["enormous", "strong", "moderate", "intimate"]

/-- `GENDER_5` (line 56). -/
def GENDER_5 : List String := ["male", "more_male", "unisex", "more_female", "female"]

/-- `VALUE_5` (line 57). -/
def VALUE_5 : List String := ["excellent", "good", "fair", "expensive", "overpriced"]

/-- `total = sum(int(votes.get(k, 0) or 0) for k in keys)`. -/
def totalVotes (votes : VDict) (keys : List String) : Nat :=
  (keys.map (dget votes)).sum

/-- `sum(votes[k] * weights[k] for k in keys)` where
`weights = {keys[i]: i + 1}`: since every declared key list is
duplicate-free, the weight of the key at position `i` is `i + 1`;
transcribed as a recursion carrying the weight of the current head. -/
def weightedSumAsc (votes : VDict) (w : Nat) : List String → Nat
  | [] => 0
  | k :: ks => dget votes k * w + weightedSumAsc votes (w + 1) ks

/-- `sum(votes[k] * weights[k] for k in keys)` where
`weights = {keys[0]: 5, keys[1]: 4, keys[2]: 3, keys[3]: 2, keys[4]: 1}`
(the rating functions index `keys[0]`..`keys[4]`, and are only ever
called with the 5-element `RATING_5`); transcribed as a recursion
carrying the weight of the current head, starting at 5. -/
def weightedSumDesc (votes : VDict) (w : Nat) : List String → Nat
  | [] => 0
  | k :: ks => dget votes k * w + weightedSumDesc votes (w - 1) ks

/-- Exact-rational stand-in for Python's `f"{score:.2f}"` (two-decimal
rendering of the weighted average; the decimal text itself is outside
every claim). -/
def formatScore2 (q : ℚ) : String :=
  let c : Int := round (q * 100)
  let n : Nat := c.natAbs
  (if c < 0 then "-" else "") ++ toString (n / 100) ++ "." ++
    (if n % 100 < 10 then "0" else "") ++ toString (n % 100)

/-- `calculate_rating_score` (lines 582–589): love=5 … hate=1. -/
def calculate_rating_score (votes : VDict) (keys : List String) : ℚ :=
  let total := totalVotes votes keys
  if total = 0 then 0
  else (weightedSumDesc votes 5 keys : ℚ) / (total : ℚ)

/-- `calculate_longevity_score` (lines 592–599): weight `i + 1` by
declared order. -/
def calculate_longevity_score (votes : VDict) (keys : List String) : ℚ :=
  let total := totalVotes votes keys
  if total = 0 then 0
  else (weightedSumAsc votes 1 keys : ℚ) / (total : ℚ)

/-- `calculate_sillage_score` (lines 602–609). -/
def calculate_sillage_score (votes : VDict) (keys : List String) : ℚ :=
  let total := totalVotes votes keys
  if total = 0 then 0
  else (weightedSumAsc votes 1 keys : ℚ) / (total : ℚ)

/-- `calculate_gender_score` (lines 612–619). -/
def calculate_gender_score (votes : VDict) (keys : List String) : ℚ :=
  let total := totalVotes votes keys
  if total = 0 then 0
  else (weightedSumAsc votes 1 keys : ℚ) / (total : ℚ)

/-- `calculate_value_score` (lines 622–629). -/
def calculate_value_score (votes : VDict) (keys : List String) : ℚ :=
  let total := totalVotes votes keys
  if total = 0 then 0
  else (weightedSumAsc votes 1 keys : ℚ) / (total : ℚ)

/-- `calculate_rating_summary` (lines 470–479). -/
def calculate_rating_summary (votes : VDict) (keys : List String) : String :=
  let total := totalVotes votes keys
  if total = 0 then "—"
  else formatScore2 ((weightedSumDesc votes 5 keys : ℚ) / (total : ℚ))

/-- `calculate_longevity_summary` (lines 524–534). -/
def calculate_longevity_summary (votes : VDict) (keys : List String) : String :=
  let total := totalVotes votes keys
  if total = 0 then "—"
  else formatScore2 ((weightedSumAsc votes 1 keys : ℚ) / (total : ℚ))

/-- `calculate_sillage_summary` (lines 537–546). -/
def calculate_sillage_summary (votes : VDict) (keys : List String) : String :=
  let total := totalVotes votes keys
  if total = 0 then "—"
  else formatScore2 ((weightedSumAsc votes 1 keys : ℚ) / (total : ℚ))

/-- `score 1..N → clamp(round(score - 1), 0, N-1)`, the index mapping of
the gender/value summaries; `round` in Python is banker's rounding,
`Rat.round` rounds half away from zero — they differ only when
`score - 1` is an exact odd multiple of `1/2`, a case outside every
claim (the claims only use the zero-tally branch of these summaries). -/
def nearestOptionIndex (score : ℚ) (keys : List String) : Nat :=
  (max 0 (min ((keys.length : Int) - 1) (round (score - 1)))).toNat

/-- `calculate_gender_summary` (lines 549–562). -/
def calculate_gender_summary (votes : VDict) (keys : List String) : String :=
  let total := totalVotes votes keys
  if total = 0 then "—"
  else
    let score := (weightedSumAsc votes 1 keys : ℚ) / (total : ℚ)
    display_label (keys.getD (nearestOptionIndex score keys) "")

/-- `calculate_value_summary` (lines 565–578). -/
def calculate_value_summary (votes : VDict) (keys : List String) : String :=
  let total := totalVotes votes keys
  if total = 0 then "—"
  else
    let score := (weightedSumAsc votes 1 keys : ℚ) / (total : ℚ)
    display_label (keys.getD (nearestOptionIndex score keys) "")

/-- `max(int(votes.get(k, 0) or 0) for k in keys)`: every declared key
list is non-empty, so the fold from 0 equals Python's `max`. -/
def maxVotes (votes : VDict) (keys : List String) : Nat :=
  (keys.map (dget votes)).foldl max 0

/-- `calculate_when_summary` (lines 482–520).  The leading
`if not votes or all(v == 0 for v in votes.values())` early return is
subsumed by the `max_votes == 0` check that follows (if every stored
count is zero then the maximum over `keys` is zero), so it is not
modelled separately.  With three of four seasons present the
`[s for s in all_seasons if s not in seasons][0]` indexing always hits a
singleton list; the `[]` fallback branch below is unreachable. -/
def calculate_when_summary (votes : VDict) (keys : List String) : String :=
  let max_votes := maxVotes votes keys
  if max_votes = 0 then "—"
  else
    let threshold : ℚ := (max_votes : ℚ) * (6 / 10)
    let top_options := keys.filter (fun k => threshold ≤ (dget votes k : ℚ))
    if top_options = [] then "—"
    else
      let all_seasons : List String := ["spring", "summer", "fall", "winter"]
      let seasons := top_options.filter (fun o => all_seasons.contains o)
      let times := top_options.filter (fun o => o = "day" ∨ o = "night")
      let season_part : List String :=
        if seasons.length = 4 then ["year-round"]
        else if seasons.length = 3 then
          match all_seasons.filter (fun s => ¬ seasons.contains s) with
          | m :: _ => ["except " ++ display_label m]
          | [] => []
        else if seasons ≠ [] then [joinSep ", " (seasons.map display_label)]
        else []
      let time_part : List String :=
        if times.length = 2 then ["anytime"]
        else if times ≠ [] then [joinSep ", " (times.map display_label)]
        else []
      let parts := season_part ++ time_part
      if parts = [] then "—" else joinSep " | " parts

/-- Computation companion of `calculate_when_summary`: the float
threshold test `count >= 0.6 * max` replaced by the equivalent integer
test `6 * max ≤ 10 * count` (proved equal below), so that concrete
summaries can be evaluated by `decide`. -/
def whenSummaryNat (votes : VDict) (keys : List String) : String :=
  let max_votes := maxVotes votes keys
  if max_votes = 0 then "—"
  else
    let top_options := keys.filter (fun k => 6 * max_votes ≤ 10 * dget votes k)
    if top_options = [] then "—"
    else
      let all_seasons : List String := ["spring", "summer", "fall", "winter"]
      let seasons := top_options.filter (fun o => all_seasons.contains o)
      let times := top_options.filter (fun o => o = "day" ∨ o = "night")
      let season_part : List String :=
        if seasons.length = 4 then ["year-round"]
        else if seasons.length = 3 then
          match all_seasons.filter (fun s => ¬ seasons.contains s) with
          | m :: _ => ["except " ++ display_label m]
          | [] => []
        else if seasons ≠ [] then [joinSep ", " (seasons.map display_label)]
        else []
      let time_part : List String :=
        if times.length = 2 then ["anytime"]
        else if times ≠ [] then [joinSep ", " (times.map display_label)]
        else []
      let parts := season_part ++ time_part
      if parts = [] then "—" else joinSep " | " parts

theorem when_summary_eq_nat (votes : VDict) (keys : List String) :
    calculate_when_summary votes keys = whenSummaryNat votes keys := by
  have hp : (fun k => decide ((maxVotes votes keys : ℚ) * (6 / 10) ≤ (dget votes k : ℚ)))
      = (fun k => decide (6 * maxVotes votes keys ≤ 10 * dget votes k)) := by
    funext k
    rw [decide_eq_decide]
    constructor
    · intro hq
      have hc : ((6 : ℚ)) * (maxVotes votes keys : ℚ) ≤ 10 * (dget votes k : ℚ) := by
        nlinarith
      exact_mod_cast hc
    · intro hn
      have hc : ((6 : ℚ)) * (maxVotes votes keys : ℚ) ≤ 10 * (dget votes k : ℚ) := by
        exact_mod_cast hn
      nlinarith
  unfold calculate_when_summary whenSummaryNat
  simp only [hp]


/-!  Data model (perfume_tracker.py lines 152–230).  Only the fields the
engine reads are carried; GUI-only fields (timestamps, notes, links,
prices, dates) are omitted.  `fragrantica` / `my_votes` are Python
dictionaries mapping a category key (e.g. "rating_votes") to a vote
dictionary, modelled as association lists. -/

structure Event where
  id : String
  perfume_id : String
  event_type : String
  location : String := ""
  ml_delta : Option ℚ := none
  purchase_type_id : String := ""
  note : String := ""
deriving DecidableEq, Repr

structure Perfume where
  id : String
  name : String
  brand_id : String := ""
  concentration_id : String := ""
  outlet_ids : List String := []
  tag_ids : List String := []
  events : List Event := []
  fragrantica : List (String × VDict) := []
  my_votes : List (String × VDict) := []
deriving DecidableEq, Repr

structure OutletInfo where
  name : String
  region : String := ""
deriving DecidableEq, Repr

structure AppData where
  perfumes : List Perfume := []
  brands_map : List (String × String) := []
  concentrations_map : List (String × String) := []
  outlets_map : List (String × OutletInfo) := []
  tags_map : List (String × String) := []
  purchase_types_map : List (String × String) := []
deriving DecidableEq, Repr

/-- `(p.fragrantica or {}).get(cat, {})`. -/
def fragVotes (p : Perfume) (cat : String) : VDict :=
  (p.fragrantica.lookup cat).getD []

/-- `(p.my_votes or {}).get(cat, {})`. -/
def myVotes (p : Perfume) (cat : String) : VDict :=
  (p.my_votes.lookup cat).getD []

/-- `get_brand_name` (line 2979): unknown ids resolve to `""`. -/
def get_brand_name (app : AppData) (brand_id : String) : String :=
  (app.brands_map.lookup brand_id).getD ""

/-- `get_concentration_name` (line 2983). -/
def get_concentration_name (app : AppData) (conc_id : String) : String :=
  (app.concentrations_map.lookup conc_id).getD ""

/-- `get_tag_name` (line 2998). -/
def get_tag_name (app : AppData) (tag_id : String) : String :=
  (app.tags_map.lookup tag_id).getD ""

/-- `get_purchase_type_name` (line 3002). -/
def get_purchase_type_name (app : AppData) (pt_id : String) : String :=
  (app.purchase_types_map.lookup pt_id).getD ""

/-- Python `s.lower()`, transcribed as a character-wise map (the
identifiers and names compared by the engine are ASCII). -/
def pyLower (s : String) : String := String.mk (s.data.map Char.toLower)

/-- Python `"want" in s`: a string contains a given non-empty pattern
iff splitting on the pattern yields more than one piece. -/
def hasSub (s pat : String) : Bool := (s.splitOn pat).length > 1

/-- Stand-in for Python's `f"{owned_ml:g}"` (the numeral inside the
"Owned …ml" clause; its decimal text is outside every claim). -/
def formatMl (q : ℚ) : String :=
  if q.den = 1 then toString q.num
  else toString q.num ++ "/" ++ toString q.den

/-- `derive_state` (lines 428–464).  The `tag_names if tag_names is not
None else []` default corresponds to passing `[]`. -/
def derive_state (p : Perfume) (tag_names : List String) : String × ℚ :=
  let tested := p.events.any (fun e => e.event_type = "smell" ∨ e.event_type = "skin")
  let on_skin := p.events.any (fun e => e.event_type = "skin")
  let owned_ml : ℚ := (p.events.filterMap (fun e => e.ml_delta)).sum
  let want := ((tag_names.map (fun t => pyLower t)).contains "want")
    || p.events.any (fun e => hasSub (pyLower e.note) "want")
  let parts : List String :=
    (if tested then ["Tested"] else []) ++
    (if on_skin then ["On-skin"] else []) ++
    (if 0 < owned_ml then ["Owned " ++ formatMl owned_ml ++ "ml"] else []) ++
    (if want then ["Want"] else [])
  if parts = [] then ("New", owned_ml)
  else (joinSep " | " parts, owned_ml)

/-- `FilterConfig` (lines 125–149) with its declared defaults. -/
structure FilterConfig where
  brands : List String := []
  states : List String := []
  seasons : List String := []
  times : List String := []
  rating_min : ℚ := 0
  rating_max : ℚ := 5
  rating_exclude : Bool := false
  longevity_min : ℚ := 0
  longevity_max : ℚ := 5
  longevity_exclude : Bool := false
  sillage_min : ℚ := 0
  sillage_max : ℚ := 4
  sillage_exclude : Bool := false
  value_min : ℚ := 0
  value_max : ℚ := 5
  value_exclude : Bool := false
  gender_preference : List String := []
  tags : List String := []
  tags_logic : String := "or"
  has_my_vote : Bool := false
  has_fragrantica : Bool := false
deriving Repr

/-!  `_matches_filter` (lines 3504–3632) is a chain of independent
early-return guards over an unchanging perfume; it is transcribed as
one pass-predicate per facet, conjoined in source order. -/

/-- Brands facet: `if config.brands and brand_name not in config.brands:
return False`. -/
def brandsFacetPass (app : AppData) (p : Perfume) (c : FilterConfig) : Bool :=
  !(!c.brands.isEmpty && !(c.brands.contains (get_brand_name app p.brand_id)))

/-- States facet (lines 3513–3526). -/
def statesFacetPass (app : AppData) (p : Perfume) (c : FilterConfig) : Bool :=
  if c.states.isEmpty then true
  else
    let tag_names := p.tag_ids.map (get_tag_name app)
    let sv := derive_state p tag_names
    (c.states.contains "owned" && decide (0 < sv.2))
      || (c.states.contains "tested" && hasSub sv.1 "Tested")
      || (c.states.contains "wishlist" && sv.1 = "Wishlist")

/-- Seasons/times facet (lines 3529–3541). -/
def whenFacetPass (p : Perfume) (c : FilterConfig) : Bool :=
  if c.seasons.isEmpty && c.times.isEmpty then true
  else
    let fr := fragVotes p "season_time_votes"
    let my := myVotes p "my_season_time_votes"
    (c.seasons ++ c.times).any (fun item => 10 ≤ dget fr item || 0 < dget my item)

/-- Rating range facet (lines 3548–3558): active when `min > 0`,
`max < 5.0`, or exclude mode; a zero score counts as "no data". -/
def ratingFacetPass (p : Perfume) (c : FilterConfig) : Bool :=
  if ¬ (0 < c.rating_min ∨ c.rating_max < 5 ∨ c.rating_exclude = true) then true
  else
    let score := calculate_rating_score (fragVotes p "rating_votes") RATING_5
    let has_data := decide (0 < score)
    let in_range := decide (c.rating_min ≤ score) && decide (score ≤ c.rating_max)
    if c.rating_exclude then !(has_data && in_range) else has_data && in_range

/-- Longevity range facet (lines 3561–3571). -/
def longevityFacetPass (p : Perfume) (c : FilterConfig) : Bool :=
  if ¬ (0 < c.longevity_min ∨ c.longevity_max < 5 ∨ c.longevity_exclude = true) then true
  else
    let score := calculate_longevity_score (fragVotes p "longevity_votes") LONGEVITY_5
    let has_data := decide (0 < score)
    let in_range := decide (c.longevity_min ≤ score) && decide (score ≤ c.longevity_max)
    if c.longevity_exclude then !(has_data && in_range) else has_data && in_range

/-- Sillage range facet (lines 3574–3584): full scale is 4.0. -/
def sillageFacetPass (p : Perfume) (c : FilterConfig) : Bool :=
  if ¬ (0 < c.sillage_min ∨ c.sillage_max < 4 ∨ c.sillage_exclude = true) then true
  else
    let score := calculate_sillage_score (fragVotes p "sillage_votes") SILLAGE_4
    let has_data := decide (0 < score)
    let in_range := decide (c.sillage_min ≤ score) && decide (score ≤ c.sillage_max)
    if c.sillage_exclude then !(has_data && in_range) else has_data && in_range

/-- Value range facet (lines 3587–3597). -/
def valueFacetPass (p : Perfume) (c : FilterConfig) : Bool :=
  if ¬ (0 < c.value_min ∨ c.value_max < 5 ∨ c.value_exclude = true) then true
  else
    let score := calculate_value_score (fragVotes p "value_votes") VALUE_5
    let has_data := decide (0 < score)
    let in_range := decide (c.value_min ≤ score) && decide (score ≤ c.value_max)
    if c.value_exclude then !(has_data && in_range) else has_data && in_range

/-- Gender facet (lines 3600–3609). -/
def genderFacetPass (p : Perfume) (c : FilterConfig) : Bool :=
  if c.gender_preference.isEmpty then true
  else
    let fr := fragVotes p "gender_votes"
    let my := myVotes p "my_gender_votes"
    c.gender_preference.any (fun g => 10 ≤ dget fr g || 0 < dget my g)

/-- Tags facet (lines 3612–3619): Python compares name sets, which is
membership-wise identical to these list traversals. -/
def tagsFacetPass (app : AppData) (p : Perfume) (c : FilterConfig) : Bool :=
  if c.tags.isEmpty then true
  else
    let p_tags := p.tag_ids.map (get_tag_name app)
    if c.tags_logic = "and" then c.tags.all (fun t => p_tags.contains t)
    else c.tags.any (fun t => p_tags.contains t)

/-- `has_my_vote` facet (lines 3622–3624): `any(p.my_votes.values())`
is Python truthiness of the per-category vote dictionaries. -/
def myVoteFacetPass (p : Perfume) (c : FilterConfig) : Bool :=
  !c.has_my_vote || p.my_votes.any (fun e => !e.2.isEmpty)

/-- `has_fragrantica` facet (lines 3626–3628). -/
def fragFacetPass (p : Perfume) (c : FilterConfig) : Bool :=
  !c.has_fragrantica || p.fragrantica.any (fun e => !e.2.isEmpty)

/-- `_matches_filter` (lines 3504–3632): all facets must pass. -/
def matchesFilter (app : AppData) (p : Perfume) (c : FilterConfig) : Bool :=
  brandsFacetPass app p c && statesFacetPass app p c && whenFacetPass p c
    && ratingFacetPass p c && longevityFacetPass p c && sillageFacetPass p c
    && valueFacetPass p c && genderFacetPass p c && tagsFacetPass app p c
    && myVoteFacetPass p c && fragFacetPass p c

/-!  `_sort_perfumes` / `_get_sort_value` (lines 3634–3698).  A sort key
is a Python tuple mixing strings, bools and numbers; `KeyElem` covers
the constructors that occur.  Python compares tuples lexicographically,
comparing elements with `<`/`==`; comparing a string with a bool raises
`TypeError`, which cannot occur because within one sort every perfume's
key for a given dimension has the same shape — the mixed cases below
return `false` and are never exercised. -/

inductive KeyElem where
  | s (v : String)
  | b (v : Bool)
  | q (v : ℚ)
  | i (v : Int)
deriving DecidableEq, Repr

/-- Python `<` on lists of characters (code-point lexicographic). -/
def charListLt : List Char → List Char → Bool
  | [], [] => false
  | [], _ :: _ => true
  | _ :: _, [] => false
  | a :: as, b :: bs => a < b || (a = b && charListLt as bs)

/-- Python `<` on strings. -/
def strLt (a b : String) : Bool := charListLt a.data b.data

/-- Python `<` on one tuple element. -/
def keyElemLt : KeyElem → KeyElem → Bool
  | .s a, .s b => strLt a b
  | .b a, .b b => !a && b
  | .q a, .q b => decide (a < b)
  | .i a, .i b => decide (a < b)
  | _, _ => false

/-- Python `<` on tuples: lexicographic, a strict prefix is smaller. -/
def keyLt : List KeyElem → List KeyElem → Bool
  | [], [] => false
  | [], _ :: _ => true
  | _ :: _, [] => false
  | a :: as, b :: bs => keyElemLt a b || (a = b && keyLt as bs)

/-- `state_priority.get(state.split(",")[0], 3)` (lines 3692–3697):
the dictionary `{"Owned": 0, "Tested": 1, "Wishlist": 2}`. -/
def statePriority (s : String) : Int :=
  if s = "Owned" then 0 else if s = "Tested" then 1
  else if s = "Wishlist" then 2 else 3

/-- `SortConfig` (lines 117–122). -/
structure SortConfig where
  dimensions : List (String × String) := []
deriving Repr

/-- `_get_sort_value` (lines 3648–3698). -/
def getSortValue (app : AppData) (p : Perfume) (dimension order : String) : List KeyElem :=
  if dimension = "brand" then
    let brand_name := pyLower (get_brand_name app p.brand_id)
    if order = "asc" then [.s brand_name] else [.s brand_name, .b true]
  else if dimension = "name" then
    if order = "asc" then [.s (pyLower p.name)] else [.s (pyLower p.name), .b true]
  else if dimension = "rating" then
    let score := calculate_rating_score (fragVotes p "rating_votes") RATING_5
    if order = "desc" then [.q (-score)] else [.q score]
  else if dimension = "longevity" then
    let score := calculate_longevity_score (fragVotes p "longevity_votes") LONGEVITY_5
    if order = "desc" then [.q (-score)] else [.q score]
  else if dimension = "sillage" then
    let score := calculate_sillage_score (fragVotes p "sillage_votes") SILLAGE_4
    if order = "desc" then [.q (-score)] else [.q score]
  else if dimension = "gender" then
    let score := calculate_gender_score (fragVotes p "gender_votes") GENDER_5
    if order = "female_first" then [.q score]
    else if order = "male_first" then [.q (-score)]
    else [.q |score - 3|]
  else if dimension = "value" then
    let score := calculate_value_score (fragVotes p "value_votes") VALUE_5
    if order = "desc" then [.q (-score)] else [.q score]
  else if dimension = "state" then
    let tag_names := p.tag_ids.map (get_tag_name app)
    let sv := derive_state p tag_names
    [.i (statePriority (((sv.1.splitOn ",").headD "")))]
  else [.i 0]

/-- The composite key `tuple(keys)` built by `sort_key` (lines 3641–3645):
the per-dimension key fragments concatenated in priority order. -/
def sortKey (app : AppData) (c : SortConfig) (p : Perfume) : List KeyElem :=
  (c.dimensions.map (fun d => getSortValue app p d.1 d.2)).flatten

/-- Stable insert for `pySorted`: `x` goes before the first element not
strictly below it. -/
def insertStable (lt : Perfume → Perfume → Bool) (x : Perfume) : List Perfume → List Perfume
  | [] => [x]
  | y :: ys => if lt y x then y :: insertStable lt x ys else x :: y :: ys

/-- Python `sorted(xs, key=...)`: ascending, stable, driven by `<` on
keys. -/
def pySorted (lt : Perfume → Perfume → Bool) : List Perfume → List Perfume
  | [] => []
  | x :: xs => insertStable lt x (pySorted lt xs)

/-- `_sort_perfumes` (lines 3634–3646): empty config is the identity,
otherwise a stable ascending sort by the composite key. -/
def sortPerfumes (app : AppData) (perfumes : List Perfume) (c : SortConfig) : List Perfume :=
  if c.dimensions.isEmpty then perfumes
  else pySorted (fun a b => keyLt (sortKey app c a) (sortKey app c b)) perfumes

/-!  Reference-table maintenance (`MappingManagerDialog`,
lines 1846–2096).  `current_tab` selects one of the five tables; the
Python `elif` chains on it are transcribed as matches on the same
strings. -/

/-- `_get_item_name` (lines 1869–1875). -/
def get_item_name (app : AppData) (tab : String) (item_id : String) : String :=
  match tab with
  | "brands" => (app.brands_map.lookup item_id).getD ""
  | "tags" => (app.tags_map.lookup item_id).getD ""
  | "concentrations" => (app.concentrations_map.lookup item_id).getD ""
  | "purchase_types" => (app.purchase_types_map.lookup item_id).getD ""
  | "outlets" =>
    match app.outlets_map.lookup item_id with
    | some o => o.name ++ (if o.region ≠ "" then " (" ++ o.region ++ ")" else "")
    | none => ""
  | _ => ""

/-- `_count_usage` (lines 1877–1891). -/
def count_usage (app : AppData) (tab : String) (item_id : String) : Nat :=
  match tab with
  | "brands" => (app.perfumes.filter (fun p => p.brand_id = item_id)).length
  | "tags" => (app.perfumes.filter (fun p => p.tag_ids.contains item_id)).length
  | "concentrations" => (app.perfumes.filter (fun p => p.concentration_id = item_id)).length
  | "outlets" => (app.perfumes.filter (fun p => p.outlet_ids.contains item_id)).length
  | "purchase_types" =>
    (app.perfumes.map (fun p => (p.events.filter (fun e => e.purchase_type_id = item_id)).length)).sum
  | _ => 0

/-- Python `current_map[k] = v` on an ordered dictionary: update in
place if the key exists (keys are unique, so mapping every matching
entry is the same), else append at the end. -/
def setVal {α : Type} (m : List (String × α)) (k : String) (v : α) : List (String × α) :=
  if m.any (fun e => e.1 = k) then m.map (fun e => if e.1 = k then (k, v) else e)
  else m ++ [(k, v)]

/-- Python `del current_map[k]` (the ids handed to it are existing
keys): drop the entry, preserving the order of the rest. -/
def delKey {α : Type} (m : List (String × α)) (k : String) : List (String × α) :=
  m.filter (fun e => e.1 ≠ k)

/-- One iteration of `_merge_selected`'s rewrite loop (lines 2023–2051)
for a non-target id `sid`: rewrite every reference from `sid` to
`target`, de-duplicating list-valued references that contained `sid`,
then delete `sid` from the table. -/
def mergeStep (tab : String) (target sid : String) (app : AppData) : AppData :=
  match tab with
  | "brands" =>
    { app with
      perfumes := app.perfumes.map (fun p =>
        if p.brand_id = sid then { p with brand_id := target } else p),
      brands_map := delKey app.brands_map sid }
  | "tags" =>
    { app with
      perfumes := app.perfumes.map (fun p =>
        if p.tag_ids.contains sid then
          { p with tag_ids := pyDedup (p.tag_ids.map (fun t => if t = sid then target else t)) }
        else p),
      tags_map := delKey app.tags_map sid }
  | "concentrations" =>
    { app with
      perfumes := app.perfumes.map (fun p =>
        if p.concentration_id = sid then { p with concentration_id := target } else p),
      concentrations_map := delKey app.concentrations_map sid }
  | "outlets" =>
    { app with
      perfumes := app.perfumes.map (fun p =>
        if p.outlet_ids.contains sid then
          { p with outlet_ids := pyDedup (p.outlet_ids.map (fun t => if t = sid then target else t)) }
        else p),
      outlets_map := delKey app.outlets_map sid }
  | "purchase_types" =>
    { app with
      perfumes := app.perfumes.map (fun p =>
        { p with events := p.events.map (fun e =>
            if e.purchase_type_id = sid then { e with purchase_type_id := target } else e) }),
      purchase_types_map := delKey app.purchase_types_map sid }
  | _ => app

/-- `_merge_selected` (lines 1997–2058).  A selection of fewer than two
items is rejected up front ("Please select 2 or more items to merge")
before the keep-name dialog, so nothing changes.  Otherwise the target
is the first selected id; its table value is set to the kept name
(outlets get `OutletInfo(name=keep_name, region="")`), then every other
selected id is rewritten and removed. -/
def merge_selected (app : AppData) (tab : String) (selected_ids : List String)
    (keep_name : String) : AppData :=
  match selected_ids with
  | [] => app
  | [_] => app
  | target_id :: _ =>
    let app1 : AppData :=
      match tab with
      | "brands" => { app with brands_map := setVal app.brands_map target_id keep_name }
      | "tags" => { app with tags_map := setVal app.tags_map target_id keep_name }
      | "concentrations" =>
        { app with concentrations_map := setVal app.concentrations_map target_id keep_name }
      | "outlets" =>
        { app with outlets_map := setVal app.outlets_map target_id ⟨keep_name, ""⟩ }
      | "purchase_types" =>
        { app with purchase_types_map := setVal app.purchase_types_map target_id keep_name }
      | _ => app
    selected_ids.foldl
      (fun acc sid => if sid = target_id then acc else mergeStep tab target_id sid acc) app1

/-- `_delete_selected` (lines 2060–2096): if any selected id is still
referenced, report each as `(display name, usage count)` and change
nothing; otherwise (after the user confirms) delete every selected id
whose usage count is zero. -/
def delete_selected (app : AppData) (tab : String) (selected_ids : List String) :
    AppData × Option (List (String × Nat)) :=
  let used := selected_ids.filterMap (fun sid =>
    let usage := count_usage app tab sid
    if 0 < usage then some (get_item_name app tab sid, usage) else none)
  if used ≠ [] then (app, some used)
  else
    let to_delete := selected_ids.filter (fun sid => count_usage app tab sid = 0)
    let app' : AppData :=
      match tab with
      | "brands" => { app with brands_map := to_delete.foldl delKey app.brands_map }
      | "tags" => { app with tags_map := to_delete.foldl delKey app.tags_map }
      | "concentrations" =>
        { app with concentrations_map := to_delete.foldl delKey app.concentrations_map }
      | "outlets" => { app with outlets_map := to_delete.foldl delKey app.outlets_map }
      | "purchase_types" =>
        { app with purchase_types_map := to_delete.foldl delKey app.purchase_types_map }
      | _ => app
    (app', none)

/-!  Library lemmas about the embedding's primitives. -/

theorem pyDedup_nil : pyDedup [] = [] := by simp [pyDedup]

theorem pyDedup_cons (x : String) (xs : List String) :
    pyDedup (x :: xs) = x :: pyDedup (xs.filter (fun y => y ≠ x)) := by
  simp [pyDedup]

theorem mem_pyDedup_aux :
    ∀ (n : ℕ) (l : List String), l.length ≤ n → ∀ a, a ∈ pyDedup l ↔ a ∈ l := by
  intro n
  induction n with
  | zero =>
    intro l hl a
    rw [List.length_eq_zero.mp (Nat.le_zero.mp hl)]
    simp [pyDedup_nil]
  | succ n ih =>
    intro l hl a
    cases l with
    | nil => simp [pyDedup_nil]
    | cons x xs =>
      rw [pyDedup_cons]
      have hlen : (xs.filter (fun y => y ≠ x)).length ≤ n :=
        le_trans (List.length_filter_le _ _) (Nat.lt_succ_iff.mp hl)
      by_cases hax : a = x
      · simp [hax]
      · simp only [List.mem_cons, ih _ hlen, List.mem_filter]
        simp [hax]

theorem mem_pyDedup (l : List String) (a : String) : a ∈ pyDedup l ↔ a ∈ l :=
  mem_pyDedup_aux l.length l le_rfl a

theorem pyDedup_nodup_aux :
    ∀ (n : ℕ) (l : List String), l.length ≤ n → (pyDedup l).Nodup := by
  intro n
  induction n with
  | zero =>
    intro l hl
    rw [List.length_eq_zero.mp (Nat.le_zero.mp hl)]
    simp [pyDedup_nil]
  | succ n ih =>
    intro l hl
    cases l with
    | nil => simp [pyDedup_nil]
    | cons x xs =>
      rw [pyDedup_cons, List.nodup_cons]
      have hlen : (xs.filter (fun y => y ≠ x)).length ≤ n :=
        le_trans (List.length_filter_le _ _) (Nat.lt_succ_iff.mp hl)
      refine ⟨fun hmem => ?_, ih _ hlen⟩
      rw [mem_pyDedup, List.mem_filter] at hmem
      simp at hmem

theorem pyDedup_nodup (l : List String) : (pyDedup l).Nodup :=
  pyDedup_nodup_aux l.length l le_rfl

theorem pyDedup_eq_self_aux :
    ∀ (n : ℕ) (l : List String), l.length ≤ n → l.Nodup → pyDedup l = l := by
  intro n
  induction n with
  | zero =>
    intro l hl _
    rw [List.length_eq_zero.mp (Nat.le_zero.mp hl)]
    simp [pyDedup_nil]
  | succ n ih =>
    intro l hl hnd
    cases l with
    | nil => simp [pyDedup_nil]
    | cons x xs =>
      rw [List.nodup_cons] at hnd
      have hfx : xs.filter (fun y => y ≠ x) = xs := by
        apply List.filter_eq_self.mpr
        intro a ha
        simp only [decide_eq_true_eq]
        intro hax
        exact hnd.1 (hax ▸ ha)
      rw [pyDedup_cons, hfx,
        ih xs (Nat.lt_succ_iff.mp hl) hnd.2]

theorem pyDedup_eq_self (l : List String) (h : l.Nodup) : pyDedup l = l :=
  pyDedup_eq_self_aux l.length l le_rfl h

theorem filter_pyDedup_aux (p : String → Bool) :
    ∀ (n : ℕ) (l : List String), l.length ≤ n →
      (pyDedup l).filter p = pyDedup (l.filter p) := by
  intro n
  induction n with
  | zero =>
    intro l hl
    rw [List.length_eq_zero.mp (Nat.le_zero.mp hl)]
    simp [pyDedup_nil]
  | succ n ih =>
    intro l hl
    cases l with
    | nil => simp [pyDedup_nil]
    | cons x xs =>
      have hlen : (xs.filter (fun y => y ≠ x)).length ≤ n :=
        le_trans (List.length_filter_le _ _) (Nat.lt_succ_iff.mp hl)
      by_cases hp : p x
      · rw [pyDedup_cons, List.filter_cons_of_pos hp, ih _ hlen,
          List.filter_filter, List.filter_cons_of_pos hp, pyDedup_cons,
          List.filter_filter]
        have hcomm :
            xs.filter (fun a => p a && decide (a ≠ x))
              = xs.filter (fun a => decide (a ≠ x) && p a) :=
          List.filter_congr (fun a _ => Bool.and_comm _ _)
        rw [hcomm]
      · rw [pyDedup_cons, List.filter_cons_of_neg hp, ih _ hlen,
          List.filter_filter, List.filter_cons_of_neg hp]
        congr 1
        apply List.filter_congr
        intro a _
        by_cases hpa : p a
        · have hax : (a ≠ x) := fun he => hp (he ▸ hpa)
          simp [hpa, hax]
        · simp [hpa]

theorem filter_pyDedup (p : String → Bool) (l : List String) :
    (pyDedup l).filter p = pyDedup (l.filter p) :=
  filter_pyDedup_aux p l.length l le_rfl

theorem map_filter_comm (g : String → String) (p : String → Bool) :
    ∀ l : List String, (l.map g).filter p = (l.filter (fun y => p (g y))).map g := by
  intro l
  induction l with
  | nil => simp
  | cons x xs ih =>
    by_cases hp : p (g x) <;> simp [hp, ih]

theorem pyDedup_map_pyDedup_aux (g : String → String) :
    ∀ (n : ℕ) (l : List String), l.length ≤ n →
      pyDedup ((pyDedup l).map g) = pyDedup (l.map g) := by
  intro n
  induction n with
  | zero =>
    intro l hl
    rw [List.length_eq_zero.mp (Nat.le_zero.mp hl)]
    simp [pyDedup_nil]
  | succ n ih =>
    intro l hl
    cases l with
    | nil => simp [pyDedup_nil]
    | cons x xs =>
      have hlen : (xs.filter (fun y => y ≠ x)).length ≤ n :=
        le_trans (List.length_filter_le _ _) (Nat.lt_succ_iff.mp hl)
      rw [pyDedup_cons, List.map_cons, pyDedup_cons, List.map_cons, pyDedup_cons]
      congr 1
      rw [map_filter_comm, filter_pyDedup, List.filter_filter]
      have hcollapse :
          xs.filter (fun y => decide (g y ≠ g x) && decide (y ≠ x))
            = xs.filter (fun y => g y ≠ g x) := by
        apply List.filter_congr
        intro a _
        by_cases hga : g a = g x
        · simp [hga]
        · have hax : a ≠ x := fun he => hga (he ▸ rfl)
          simp [hga, hax]
      rw [hcollapse]
      have hlen2 : (xs.filter (fun y => g y ≠ g x)).length ≤ n :=
        le_trans (List.length_filter_le _ _) (Nat.lt_succ_iff.mp hl)
      rw [ih _ hlen2, map_filter_comm g (fun y => decide (y ≠ g x)) xs]

theorem pyDedup_map_pyDedup (g : String → String) (l : List String) :
    pyDedup ((pyDedup l).map g) = pyDedup (l.map g) :=
  pyDedup_map_pyDedup_aux g l.length l le_rfl

theorem lookup_keyFilter_of_not {α : Type} (m : List (String × α)) (q : String → Bool)
    (k : String) (hk : q k = false) :
    (m.filter (fun e => q e.1)).lookup k = none := by
  induction m with
  | nil => simp
  | cons e rest ih =>
    obtain ⟨ek, ev⟩ := e
    by_cases he : q ek
    · have hne : (k == ek) = false := by
        apply beq_false_of_ne
        intro hkk
        rw [hkk, he] at hk
        cases hk
      simp [List.filter_cons, he, List.lookup, hne, ih]
    · simp [List.filter_cons, he, ih]

theorem lookup_keyFilter_of_pred {α : Type} (m : List (String × α)) (q : String → Bool)
    (k : String) (hk : q k = true) :
    (m.filter (fun e => q e.1)).lookup k = m.lookup k := by
  induction m with
  | nil => simp
  | cons e rest ih =>
    obtain ⟨ek, ev⟩ := e
    by_cases hek : k = ek
    · have he : q ek = true := hek ▸ hk
      simp [List.filter_cons, he, List.lookup, hek]
    · have hne : (k == ek) = false := beq_false_of_ne hek
      by_cases he : q ek
      · simp [List.filter_cons, he, List.lookup, hne, ih]
      · simp [List.filter_cons, he, List.lookup, hne, ih]

theorem lookup_delKey_self {α : Type} (m : List (String × α)) (k : String) :
    (delKey m k).lookup k = none := by
  unfold delKey
  exact lookup_keyFilter_of_not m (fun s => decide (s ≠ k)) k (by simp)

theorem lookup_map_setter {α : Type} (m : List (String × α)) (k : String) (v : α)
    (h : m.any (fun e => e.1 = k) = true) :
    (m.map (fun e => if e.1 = k then (k, v) else e)).lookup k = some v := by
  induction m with
  | nil => cases h
  | cons e tail ih =>
    obtain ⟨ek, ev⟩ := e
    by_cases hek : ek = k
    · subst hek
      simp only [List.map_cons, if_true, eq_self_iff_true]
      simp [List.lookup]
    · have hany : tail.any (fun e => e.1 = k) = true := by
        simp only [List.any_cons] at h
        rcases Bool.or_eq_true_iff.mp h with hl | hr
        · exact absurd (of_decide_eq_true hl) hek
        · exact hr
      have hne : (k == ek) = false := beq_false_of_ne (fun hkk => hek hkk.symm)
      simp only [List.map_cons]
      rw [if_neg (show ¬ ((ek, ev).1 = k) from hek)]
      simp [List.lookup, hne, ih hany]

theorem lookup_append_new {α : Type} (m : List (String × α)) (k : String) (v : α)
    (h : m.any (fun e => e.1 = k) = false) :
    (m ++ [(k, v)]).lookup k = some v := by
  induction m with
  | nil => simp [List.lookup]
  | cons e tail ih =>
    obtain ⟨ek, ev⟩ := e
    simp only [List.any_cons, Bool.or_eq_false_iff] at h
    have hek : ¬ (ek = k) := by
      intro hekk
      rw [hekk] at h
      simp at h
    have hne : (k == ek) = false := beq_false_of_ne (fun hkk => hek hkk.symm)
    simp [List.lookup, hne, ih h.2]

theorem lookup_setVal_self {α : Type} (m : List (String × α)) (k : String) (v : α) :
    (setVal m k v).lookup k = some v := by
  unfold setVal
  by_cases h : m.any (fun e => e.1 = k)
  · rw [if_pos h]
    exact lookup_map_setter m k v h
  · rw [if_neg h]
    exact lookup_append_new m k v (Bool.not_eq_true _ ▸ eq_false_of_ne_true h)
theorem totalVotes_le_weightedSumAsc (votes : VDict) :
    ∀ (ks : List String) (m : ℕ), totalVotes votes ks ≤ weightedSumAsc votes (m + 1) ks := by
  intro ks
  induction ks with
  | nil => intro m; simp [totalVotes, weightedSumAsc]
  | cons k ks ih =>
    intro m
    simp only [totalVotes, List.map_cons, List.sum_cons, weightedSumAsc]
    have h1 : dget votes k ≤ dget votes k * (m + 1) := Nat.le_mul_of_pos_right _ (Nat.succ_pos m)
    have h2 : totalVotes votes ks ≤ weightedSumAsc votes (m + 1 + 1) ks := ih (m + 1)
    simpa [totalVotes] using Nat.add_le_add h1 h2

theorem weightedSumAsc_le (votes : VDict) :
    ∀ (ks : List String) (m : ℕ),
      weightedSumAsc votes (m + 1) ks ≤ (m + ks.length) * totalVotes votes ks := by
  intro ks
  induction ks with
  | nil => intro m; simp [totalVotes, weightedSumAsc]
  | cons k ks ih =>
    intro m
    simp only [weightedSumAsc, totalVotes, List.map_cons, List.sum_cons, List.length_cons]
    have h1 : dget votes k * (m + 1) ≤ (m + (ks.length + 1)) * dget votes k := by
      rw [Nat.mul_comm]
      exact Nat.mul_le_mul_right _ (by omega)
    have h2 : weightedSumAsc votes (m + 1 + 1) ks ≤ (m + 1 + ks.length) * totalVotes votes ks :=
      ih (m + 1)
    calc dget votes k * (m + 1) + weightedSumAsc votes (m + 1 + 1) ks
        ≤ (m + (ks.length + 1)) * dget votes k + (m + 1 + ks.length) * totalVotes votes ks :=
          Nat.add_le_add h1 h2
      _ ≤ (m + (ks.length + 1)) * dget votes k + (m + (ks.length + 1)) * totalVotes votes ks := by
          have : (m + 1 + ks.length) = (m + (ks.length + 1)) := by omega
          rw [this]
      _ = (m + (ks.length + 1)) * (dget votes k + (List.map (dget votes) ks).sum) := by
          rw [← Nat.mul_add]; rfl

theorem totalVotes_eq_zero_iff (votes : VDict) (keys : List String) :
    totalVotes votes keys = 0 ↔ ∀ k ∈ keys, dget votes k = 0 := by
  unfold totalVotes
  rw [List.sum_eq_zero_iff]
  constructor
  · intro h k hk
    exact h _ (List.mem_map_of_mem _ hk)
  · intro h x hx
    obtain ⟨k, hk, rfl⟩ := List.mem_map.mp hx
    exact h k hk

theorem div_bounds_of_le {W T n : ℕ} (hT : T ≠ 0) (h1 : T ≤ W) (h2 : W ≤ n * T) :
    1 ≤ (W : ℚ) / (T : ℚ) ∧ (W : ℚ) / (T : ℚ) ≤ (n : ℚ) := by
  have hTpos : (0 : ℚ) < (T : ℚ) := by
    exact_mod_cast Nat.pos_of_ne_zero hT
  constructor
  · rw [one_le_div hTpos]
    exact_mod_cast h1
  · rw [div_le_iff₀ hTpos]
    exact_mod_cast h2

/-- The common body of the four ascending-weight score functions. -/
theorem ascSlice_bounds (votes : VDict) (keys : List String)
    (h : totalVotes votes keys ≠ 0) :
    1 ≤ (weightedSumAsc votes 1 keys : ℚ) / (totalVotes votes keys : ℚ)
      ∧ (weightedSumAsc votes 1 keys : ℚ) / (totalVotes votes keys : ℚ) ≤ (keys.length : ℚ) := by
  have h1 : totalVotes votes keys ≤ weightedSumAsc votes 1 keys :=
    totalVotes_le_weightedSumAsc votes keys 0
  have h2 : weightedSumAsc votes 1 keys ≤ keys.length * totalVotes votes keys := by
    have := weightedSumAsc_le votes keys 0
    simpa using this
  exact div_bounds_of_le h h1 h2

theorem longevity_score_eq_zero (votes : VDict) (keys : List String)
    (h : totalVotes votes keys = 0) : calculate_longevity_score votes keys = 0 := by
  simp [calculate_longevity_score, h]

theorem longevity_score_bounds (votes : VDict) (keys : List String)
    (h : totalVotes votes keys ≠ 0) :
    1 ≤ calculate_longevity_score votes keys
      ∧ calculate_longevity_score votes keys ≤ (keys.length : ℚ) := by
  unfold calculate_longevity_score
  rw [if_neg h]
  exact ascSlice_bounds votes keys h

theorem longevity_score_pos_iff (votes : VDict) (keys : List String) :
    0 < calculate_longevity_score votes keys ↔ totalVotes votes keys ≠ 0 := by
  by_cases h : totalVotes votes keys = 0
  · simp [longevity_score_eq_zero votes keys h, h]
  · simp only [h, ne_eq, not_false_eq_true, iff_true]
    exact lt_of_lt_of_le one_pos (longevity_score_bounds votes keys h).1

theorem rating_sum_expand (votes : VDict) :
    weightedSumDesc votes 5 RATING_5
      = dget votes "love" * 5 + (dget votes "like" * 4 + (dget votes "ok" * 3 +
          (dget votes "dislike" * 2 + (dget votes "hate" * 1 + 0)))) := rfl

theorem rating_total_expand (votes : VDict) :
    totalVotes votes RATING_5
      = dget votes "love" + (dget votes "like" + (dget votes "ok" +
          (dget votes "dislike" + (dget votes "hate" + 0)))) := rfl

theorem rating_score_eq_zero (votes : VDict)
    (h : totalVotes votes RATING_5 = 0) : calculate_rating_score votes RATING_5 = 0 := by
  simp [calculate_rating_score, h]

theorem rating_score_bounds (votes : VDict) (h : totalVotes votes RATING_5 ≠ 0) :
    1 ≤ calculate_rating_score votes RATING_5
      ∧ calculate_rating_score votes RATING_5 ≤ (5 : ℚ) := by
  unfold calculate_rating_score
  rw [if_neg h]
  have h1 : totalVotes votes RATING_5 ≤ weightedSumDesc votes 5 RATING_5 := by
    rw [rating_sum_expand, rating_total_expand]
    omega
  have h2 : weightedSumDesc votes 5 RATING_5 ≤ 5 * totalVotes votes RATING_5 := by
    rw [rating_sum_expand, rating_total_expand]
    omega
  have := div_bounds_of_le h h1 h2
  exact_mod_cast this

theorem rating_score_pos_iff (votes : VDict) :
    0 < calculate_rating_score votes RATING_5 ↔ totalVotes votes RATING_5 ≠ 0 := by
  by_cases h : totalVotes votes RATING_5 = 0
  · simp [rating_score_eq_zero votes h, h]
  · simp only [h, ne_eq, not_false_eq_true, iff_true]
    exact lt_of_lt_of_le one_pos (rating_score_bounds votes h).1

theorem totalVotes_ne_zero_iff (votes : VDict) (keys : List String) :
    totalVotes votes keys ≠ 0 ↔ ∃ k ∈ keys, 0 < dget votes k := by
  rw [ne_eq, totalVotes_eq_zero_iff]
  push_neg
  simp [Nat.pos_iff_ne_zero]

/-- C10: for every category and every non-negative vote tally, the score
is 0 exactly on the all-zero tally and otherwise lies in `[1, N]` for
the category's N declared options (rating is pinned to its 5-option
list, whose weights the source hard-codes), so `score > 0` holds iff
some declared option has a positive count. -/
theorem c10_score_zero_or_in_range (votes : VDict) (keys : List String) :
    (totalVotes votes keys = 0 →
      calculate_longevity_score votes keys = 0 ∧ calculate_sillage_score votes keys = 0
        ∧ calculate_gender_score votes keys = 0 ∧ calculate_value_score votes keys = 0)
    ∧ (totalVotes votes keys ≠ 0 →
        (1 ≤ calculate_longevity_score votes keys
            ∧ calculate_longevity_score votes keys ≤ (keys.length : ℚ))
        ∧ (1 ≤ calculate_sillage_score votes keys
            ∧ calculate_sillage_score votes keys ≤ (keys.length : ℚ))
        ∧ (1 ≤ calculate_gender_score votes keys
            ∧ calculate_gender_score votes keys ≤ (keys.length : ℚ))
        ∧ (1 ≤ calculate_value_score votes keys
            ∧ calculate_value_score votes keys ≤ (keys.length : ℚ)))
    ∧ (0 < calculate_longevity_score votes keys ↔ ∃ k ∈ keys, 0 < dget votes k)
    ∧ (0 < calculate_gender_score votes keys ↔ ∃ k ∈ keys, 0 < dget votes k)
    ∧ (totalVotes votes RATING_5 = 0 → calculate_rating_score votes RATING_5 = 0)
    ∧ (totalVotes votes RATING_5 ≠ 0 →
        1 ≤ calculate_rating_score votes RATING_5
          ∧ calculate_rating_score votes RATING_5 ≤ (5 : ℚ))
    ∧ (0 < calculate_rating_score votes RATING_5 ↔ ∃ k ∈ RATING_5, 0 < dget votes k) := by
  have hsg : calculate_sillage_score votes keys = calculate_longevity_score votes keys := rfl
  have hgg : calculate_gender_score votes keys = calculate_longevity_score votes keys := rfl
  have hvg : calculate_value_score votes keys = calculate_longevity_score votes keys := rfl
  refine ⟨?_, ?_, ?_, ?_, ?_, ?_, ?_⟩
  · intro h
    have h0 := longevity_score_eq_zero votes keys h
    exact ⟨h0, by rw [hsg]; exact h0, by rw [hgg]; exact h0, by rw [hvg]; exact h0⟩
  · intro h
    have hb := longevity_score_bounds votes keys h
    exact ⟨hb, by rw [hsg]; exact hb, by rw [hgg]; exact hb, by rw [hvg]; exact hb⟩
  · rw [longevity_score_pos_iff, totalVotes_ne_zero_iff]
  · rw [hgg, longevity_score_pos_iff, totalVotes_ne_zero_iff]
  · exact rating_score_eq_zero votes
  · exact rating_score_bounds votes
  · rw [rating_score_pos_iff, totalVotes_ne_zero_iff]

/-- Witness for C10 at the tally `{eternal: 2}` on the longevity
category. -/
theorem c10_witness :
    totalVotes [("eternal", 2)] LONGEVITY_5 ≠ 0
      ∧ (1 ≤ calculate_longevity_score [("eternal", 2)] LONGEVITY_5
          ∧ calculate_longevity_score [("eternal", 2)] LONGEVITY_5 ≤ (LONGEVITY_5.length : ℚ)) :=
  ⟨by decide,
    ((c10_score_zero_or_in_range [("eternal", 2)] LONGEVITY_5).2.1 (by decide)).1⟩

theorem foldl_max_zero : ∀ l : List ℕ, (∀ x ∈ l, x = 0) → l.foldl max 0 = 0 := by
  intro l
  induction l with
  | nil => intro _; rfl
  | cons x xs ih =>
    intro h
    have hx : x = 0 := h x (List.mem_cons_self _ _)
    simp only [List.foldl_cons, hx, Nat.max_self]
    exact ih (fun y hy => h y (List.mem_cons_of_mem _ hy))

theorem maxVotes_eq_zero (votes : VDict) (keys : List String)
    (h : ∀ k ∈ keys, dget votes k = 0) : maxVotes votes keys = 0 := by
  unfold maxVotes
  apply foldl_max_zero
  intro x hx
  obtain ⟨k, hk, rfl⟩ := List.mem_map.mp hx
  exact h k hk

/-- C5: a tally that is zero on every declared option of a category
yields score 0 and the "—" sentinel summary, for all six categories. -/
theorem c5_zero_tally_sentinel (votes : VDict)
    (hr : ∀ k ∈ RATING_5, dget votes k = 0)
    (hw : ∀ k ∈ SEASON_TIME_6, dget votes k = 0)
    (hl : ∀ k ∈ LONGEVITY_5, dget votes k = 0)
    (hs : ∀ k ∈ SILLAGE_4, dget votes k = 0)
    (hg : ∀ k ∈ GENDER_5, dget votes k = 0)
    (hv : ∀ k ∈ VALUE_5, dget votes k = 0) :
    calculate_rating_score votes RATING_5 = 0
      ∧ calculate_rating_summary votes RATING_5 = "—"
      ∧ calculate_when_summary votes SEASON_TIME_6 = "—"
      ∧ calculate_longevity_score votes LONGEVITY_5 = 0
      ∧ calculate_longevity_summary votes LONGEVITY_5 = "—"
      ∧ calculate_sillage_score votes SILLAGE_4 = 0
      ∧ calculate_sillage_summary votes SILLAGE_4 = "—"
      ∧ calculate_gender_score votes GENDER_5 = 0
      ∧ calculate_gender_summary votes GENDER_5 = "—"
      ∧ calculate_value_score votes VALUE_5 = 0
      ∧ calculate_value_summary votes VALUE_5 = "—" := by
  have hr0 : totalVotes votes RATING_5 = 0 := (totalVotes_eq_zero_iff _ _).mpr hr
  have hw0 : maxVotes votes SEASON_TIME_6 = 0 := maxVotes_eq_zero votes _ hw
  have hl0 : totalVotes votes LONGEVITY_5 = 0 := (totalVotes_eq_zero_iff _ _).mpr hl
  have hs0 : totalVotes votes SILLAGE_4 = 0 := (totalVotes_eq_zero_iff _ _).mpr hs
  have hg0 : totalVotes votes GENDER_5 = 0 := (totalVotes_eq_zero_iff _ _).mpr hg
  have hv0 : totalVotes votes VALUE_5 = 0 := (totalVotes_eq_zero_iff _ _).mpr hv
  refine ⟨?_, ?_, ?_, ?_, ?_, ?_, ?_, ?_, ?_, ?_, ?_⟩
  · simp [calculate_rating_score, hr0]
  · simp [calculate_rating_summary, hr0]
  · simp [calculate_when_summary, hw0]
  · simp [calculate_longevity_score, hl0]
  · simp [calculate_longevity_summary, hl0]
  · simp [calculate_sillage_score, hs0]
  · simp [calculate_sillage_summary, hs0]
  · simp [calculate_gender_score, hg0]
  · simp [calculate_gender_summary, hg0]
  · simp [calculate_value_score, hv0]
  · simp [calculate_value_summary, hv0]

/-- Witness for C5 at the empty tally. -/
theorem c5_witness :
    (∀ k ∈ RATING_5, dget [] k = 0)
      ∧ calculate_rating_summary [] RATING_5 = "—"
      ∧ calculate_when_summary [] SEASON_TIME_6 = "—" := by
  have h := c5_zero_tally_sentinel [] (by decide) (by decide) (by decide)
    (by decide) (by decide) (by decide)
  exact ⟨by decide, h.2.1, h.2.2.1⟩

/-- C1 (code bug): evaluated on the code's weight table, the longevity
score of {eternal: 1} is 1.0 and of {poor: 1} is 5.0 — the exact
opposite of the claimed 5.0 / 1.0.  `calculate_longevity_score` hangs
ascending positional weights on `LONGEVITY_5`, whose declared order is
best-first, while the summary docstring ("poor=1 …=5") and the rating
category document best = highest. -/
theorem c1_longevity_eval :
    calculate_longevity_score [("eternal", 1)] LONGEVITY_5 = 1
      ∧ calculate_longevity_score [("poor", 1)] LONGEVITY_5 = 5 := by
  constructor
  · simp only [calculate_longevity_score,
      show totalVotes [("eternal", 1)] LONGEVITY_5 = 1 from rfl,
      show weightedSumAsc [("eternal", 1)] 1 LONGEVITY_5 = 1 from rfl]
    norm_num
  · simp only [calculate_longevity_score,
      show totalVotes [("poor", 1)] LONGEVITY_5 = 1 from rfl,
      show weightedSumAsc [("poor", 1)] 1 LONGEVITY_5 = 5 from rfl]
    norm_num

/-- C8 counterexample: with counts {spring,summer,fall,winter: 100,
day,night: 50} the threshold is 0.6 × 100 = 60, so day and night (50)
fall below it and no time phrase is emitted: the summary is not
"year-round | anytime". -/
theorem c8_counterexample :
    calculate_when_summary
        [("spring", 100), ("summer", 100), ("fall", 100), ("winter", 100),
         ("day", 50), ("night", 50)] SEASON_TIME_6
      ≠ "year-round | anytime" := by
  rw [when_summary_eq_nat]
  decide

/-- C8 amended: the summary of that tally is "year-round" (all four
seasons reach the threshold, neither time option does). -/
theorem c8_amended :
    calculate_when_summary
        [("spring", 100), ("summer", 100), ("fall", 100), ("winter", 100),
         ("day", 50), ("night", 50)] SEASON_TIME_6
      = "year-round" := by
  rw [when_summary_eq_nat]
  decide

/-- C9 amended: merging a singleton id list is rejected outright
("Please select 2 or more items to merge"), so it is a complete no-op —
including the table value, which does *not* take the supplied keep
value. -/
theorem c9_singleton_merge_noop (app : AppData) (tab : String) (id keep : String) :
    merge_selected app tab [id] keep = app := rfl

/-- Concrete store for the C9 counterexample: one brand entry
`"a" ↦ "old"`. -/
def c9App : AppData := { brands_map := [("a", "old")] }

/-- C9 counterexample: after `merge(["a"], "new")` on the brands table
the sole entry still holds "old", not the supplied keep value "new" as
the claim requires. -/
theorem c9_counterexample :
    ¬ ((merge_selected c9App "brands" ["a"] "new").brands_map.lookup "a" = some "new") := by
  decide

/-- C4: each active score-range facet passes a perfume exactly when
`has_data AND in_range` holds of the community score (include mode), or
exactly when it fails (exclude mode); a perfume whose score is 0 fails
include mode and passes exclude mode. -/
theorem c4_score_range_facets (p : Perfume) (c : FilterConfig) :
    ((0 < c.rating_min ∨ c.rating_max < 5 ∨ c.rating_exclude = true) →
      (c.rating_exclude = false →
        (ratingFacetPass p c = true ↔
          (0 < calculate_rating_score (fragVotes p "rating_votes") RATING_5
            ∧ c.rating_min ≤ calculate_rating_score (fragVotes p "rating_votes") RATING_5
            ∧ calculate_rating_score (fragVotes p "rating_votes") RATING_5 ≤ c.rating_max)))
      ∧ (c.rating_exclude = true →
        (ratingFacetPass p c = true ↔
          ¬ (0 < calculate_rating_score (fragVotes p "rating_votes") RATING_5
            ∧ c.rating_min ≤ calculate_rating_score (fragVotes p "rating_votes") RATING_5
            ∧ calculate_rating_score (fragVotes p "rating_votes") RATING_5 ≤ c.rating_max)))
      ∧ (calculate_rating_score (fragVotes p "rating_votes") RATING_5 = 0 →
          (ratingFacetPass p c = true ↔ c.rating_exclude = true)))
    ∧ ((0 < c.longevity_min ∨ c.longevity_max < 5 ∨ c.longevity_exclude = true) →
      (c.longevity_exclude = false →
        (longevityFacetPass p c = true ↔
          (0 < calculate_longevity_score (fragVotes p "longevity_votes") LONGEVITY_5
            ∧ c.longevity_min ≤ calculate_longevity_score (fragVotes p "longevity_votes") LONGEVITY_5
            ∧ calculate_longevity_score (fragVotes p "longevity_votes") LONGEVITY_5 ≤ c.longevity_max)))
      ∧ (c.longevity_exclude = true →
        (longevityFacetPass p c = true ↔
          ¬ (0 < calculate_longevity_score (fragVotes p "longevity_votes") LONGEVITY_5
            ∧ c.longevity_min ≤ calculate_longevity_score (fragVotes p "longevity_votes") LONGEVITY_5
            ∧ calculate_longevity_score (fragVotes p "longevity_votes") LONGEVITY_5 ≤ c.longevity_max)))
      ∧ (calculate_longevity_score (fragVotes p "longevity_votes") LONGEVITY_5 = 0 →
          (longevityFacetPass p c = true ↔ c.longevity_exclude = true)))
    ∧ ((0 < c.sillage_min ∨ c.sillage_max < 4 ∨ c.sillage_exclude = true) →
      (c.sillage_exclude = false →
        (sillageFacetPass p c = true ↔
          (0 < calculate_sillage_score (fragVotes p "sillage_votes") SILLAGE_4
            ∧ c.sillage_min ≤ calculate_sillage_score (fragVotes p "sillage_votes") SILLAGE_4
            ∧ calculate_sillage_score (fragVotes p "sillage_votes") SILLAGE_4 ≤ c.sillage_max)))
      ∧ (c.sillage_exclude = true →
        (sillageFacetPass p c = true ↔
          ¬ (0 < calculate_sillage_score (fragVotes p "sillage_votes") SILLAGE_4
            ∧ c.sillage_min ≤ calculate_sillage_score (fragVotes p "sillage_votes") SILLAGE_4
            ∧ calculate_sillage_score (fragVotes p "sillage_votes") SILLAGE_4 ≤ c.sillage_max)))
      ∧ (calculate_sillage_score (fragVotes p "sillage_votes") SILLAGE_4 = 0 →
          (sillageFacetPass p c = true ↔ c.sillage_exclude = true)))
    ∧ ((0 < c.value_min ∨ c.value_max < 5 ∨ c.value_exclude = true) →
      (c.value_exclude = false →
        (valueFacetPass p c = true ↔
          (0 < calculate_value_score (fragVotes p "value_votes") VALUE_5
            ∧ c.value_min ≤ calculate_value_score (fragVotes p "value_votes") VALUE_5
            ∧ calculate_value_score (fragVotes p "value_votes") VALUE_5 ≤ c.value_max)))
      ∧ (c.value_exclude = true →
        (valueFacetPass p c = true ↔
          ¬ (0 < calculate_value_score (fragVotes p "value_votes") VALUE_5
            ∧ c.value_min ≤ calculate_value_score (fragVotes p "value_votes") VALUE_5
            ∧ calculate_value_score (fragVotes p "value_votes") VALUE_5 ≤ c.value_max)))
      ∧ (calculate_value_score (fragVotes p "value_votes") VALUE_5 = 0 →
          (valueFacetPass p c = true ↔ c.value_exclude = true))) := by
  refine ⟨?_, ?_, ?_, ?_⟩
  · intro hact
    refine ⟨fun hx => ?_, fun hx => ?_, fun hs => ?_⟩
    · unfold ratingFacetPass
      rw [if_neg (not_not_intro hact)]
      simp [hx, and_assoc]
    · unfold ratingFacetPass
      rw [if_neg (not_not_intro hact)]
      simp [hx, and_assoc, not_and, or_iff_not_imp_left]
    · unfold ratingFacetPass
      rw [if_neg (not_not_intro hact)]
      cases hx : c.rating_exclude <;> simp [hs, hx, lt_self_iff_false]
  · intro hact
    refine ⟨fun hx => ?_, fun hx => ?_, fun hs => ?_⟩
    · unfold longevityFacetPass
      rw [if_neg (not_not_intro hact)]
      simp [hx, and_assoc]
    · unfold longevityFacetPass
      rw [if_neg (not_not_intro hact)]
      simp [hx, and_assoc, not_and, or_iff_not_imp_left]
    · unfold longevityFacetPass
      rw [if_neg (not_not_intro hact)]
      cases hx : c.longevity_exclude <;> simp [hs, hx, lt_self_iff_false]
  · intro hact
    refine ⟨fun hx => ?_, fun hx => ?_, fun hs => ?_⟩
    · unfold sillageFacetPass
      rw [if_neg (not_not_intro hact)]
      simp [hx, and_assoc]
    · unfold sillageFacetPass
      rw [if_neg (not_not_intro hact)]
      simp [hx, and_assoc, not_and, or_iff_not_imp_left]
    · unfold sillageFacetPass
      rw [if_neg (not_not_intro hact)]
      cases hx : c.sillage_exclude <;> simp [hs, hx, lt_self_iff_false]
  · intro hact
    refine ⟨fun hx => ?_, fun hx => ?_, fun hs => ?_⟩
    · unfold valueFacetPass
      rw [if_neg (not_not_intro hact)]
      simp [hx, and_assoc]
    · unfold valueFacetPass
      rw [if_neg (not_not_intro hact)]
      simp [hx, and_assoc, not_and, or_iff_not_imp_left]
    · unfold valueFacetPass
      rw [if_neg (not_not_intro hact)]
      cases hx : c.value_exclude <;> simp [hs, hx, lt_self_iff_false]

/-- Perfume with no community votes, used by the C4 witness. -/
def c4P : Perfume := { id := "p1", name := "NoData" }

/-- Filter with an active exclude-mode rating range, used by the C4
witness. -/
def c4C : FilterConfig := { rating_exclude := true }

/-- Witness for C4: the no-data perfume passes the active exclude-mode
rating facet. -/
theorem c4_witness :
    (0 < c4C.rating_min ∨ c4C.rating_max < 5 ∨ c4C.rating_exclude = true)
      ∧ calculate_rating_score (fragVotes c4P "rating_votes") RATING_5 = 0
      ∧ (ratingFacetPass c4P c4C = true ↔ c4C.rating_exclude = true) := by
  have hs : calculate_rating_score (fragVotes c4P "rating_votes") RATING_5 = 0 := by
    simp [calculate_rating_score, c4P, fragVotes, totalVotes, dget, RATING_5]
  exact ⟨Or.inr (Or.inr rfl), hs,
    ((c4_score_range_facets c4P c4C).1 (Or.inr (Or.inr rfl))).2.2 hs⟩

theorem append_ne_wishlist (x y : String) (c : Char) (hx : x.data.head? = some c)
    (hc : c ≠ 'W') : x ++ y ≠ "Wishlist" := by
  intro he
  have hd := congrArg String.data he
  rw [String.data_append] at hd
  cases hxd : x.data with
  | nil => rw [hxd] at hx; cases hx
  | cons a as =>
    rw [hxd] at hx hd
    have hac : a = c := by simpa using hx
    rw [show ("Wishlist" : String).data = ['W', 'i', 's', 'h', 'l', 'i', 's', 't'] from rfl] at hd
    simp only [List.cons_append, List.cons.injEq] at hd
    exact hc (hac ▸ hd.1)

theorem derive_state_fst_ne_wishlist (p : Perfume) (tag_names : List String) :
    (derive_state p tag_names).1 ≠ "Wishlist" := by
  simp only [derive_state]
  split_ifs <;>
    simp only [List.cons_append, List.nil_append, List.append_nil, joinSep] <;>
    first
      | decide
      | (exact append_ne_wishlist _ _ 'T' rfl (by decide))
      | (exact append_ne_wishlist _ _ 'O' rfl (by decide))

/-- C3: for every perfume and resolved tag list, the derived state label
is never "Wishlist"; consequently a filter whose only active facet is
the states facet set to exactly ["wishlist"] matches no perfume. -/
theorem c3_wishlist_unreachable (app : AppData) (p : Perfume) (tag_names : List String) :
    (derive_state p tag_names).1 ≠ "Wishlist"
      ∧ matchesFilter app p { states := ["wishlist"] } = false := by
  refine ⟨derive_state_fst_ne_wishlist p tag_names, ?_⟩
  have hW := derive_state_fst_ne_wishlist p (p.tag_ids.map (get_tag_name app))
  have hs : statesFacetPass app p { states := ["wishlist"] } = false := by
    simp [statesFacetPass, hW]
  simp [matchesFilter, hs]

/-- Perfumes for the C2 failing input. -/
def c2Alpha : Perfume := { id := "1", name := "alpha" }

/-- Second perfume for the C2 failing input. -/
def c2Beta : Perfume := { id := "2", name := "beta" }

/-- C2 (code bug): sorting by [(name, desc)] does not reverse the
ascending order — the `desc` key `(name.lower(), True)` appends a
constant flag that never affects comparisons, so "alpha" still precedes
"beta" under both order modes, while the claim requires the
lexicographically greater name first under desc. -/
theorem c2_name_desc_eval :
    sortPerfumes {} [c2Beta, c2Alpha] { dimensions := [("name", "desc")] }
        = [c2Alpha, c2Beta]
      ∧ sortPerfumes {} [c2Beta, c2Alpha] { dimensions := [("name", "asc")] }
        = [c2Alpha, c2Beta] := by
  constructor <;> decide

/-- C7: deleting a reference-table id is rejected — reporting the
display name with its usage count, with the state unchanged — exactly
when the usage count is positive, and otherwise removes the entry;
usage counts perfumes via the scalar field (brands, concentrations),
via the list field (tags, outlets), or events (purchase types). -/
theorem c7_delete_if_unused (app : AppData) (tab : String) (id : String) :
    (0 < count_usage app tab id →
      delete_selected app tab [id]
        = (app, some [(get_item_name app tab id, count_usage app tab id)]))
    ∧ (count_usage app tab id = 0 →
        (delete_selected app tab [id]).2 = none
        ∧ (tab = "brands" →
            (delete_selected app tab [id]).1 = { app with brands_map := delKey app.brands_map id }
              ∧ (delete_selected app tab [id]).1.brands_map.lookup id = none)
        ∧ (tab = "tags" →
            (delete_selected app tab [id]).1 = { app with tags_map := delKey app.tags_map id }
              ∧ (delete_selected app tab [id]).1.tags_map.lookup id = none)
        ∧ (tab = "concentrations" →
            (delete_selected app tab [id]).1
                = { app with concentrations_map := delKey app.concentrations_map id }
              ∧ (delete_selected app tab [id]).1.concentrations_map.lookup id = none)
        ∧ (tab = "outlets" →
            (delete_selected app tab [id]).1 = { app with outlets_map := delKey app.outlets_map id }
              ∧ (delete_selected app tab [id]).1.outlets_map.lookup id = none)
        ∧ (tab = "purchase_types" →
            (delete_selected app tab [id]).1
                = { app with purchase_types_map := delKey app.purchase_types_map id }
              ∧ (delete_selected app tab [id]).1.purchase_types_map.lookup id = none))
    ∧ count_usage app "brands" id = (app.perfumes.filter (fun p => p.brand_id = id)).length
    ∧ count_usage app "tags" id = (app.perfumes.filter (fun p => p.tag_ids.contains id)).length
    ∧ count_usage app "concentrations" id
        = (app.perfumes.filter (fun p => p.concentration_id = id)).length
    ∧ count_usage app "outlets" id = (app.perfumes.filter (fun p => p.outlet_ids.contains id)).length
    ∧ count_usage app "purchase_types" id
        = (app.perfumes.map (fun p =>
            (p.events.filter (fun e => e.purchase_type_id = id)).length)).sum := by
  refine ⟨?_, ?_, rfl, rfl, rfl, rfl, rfl⟩
  · intro h
    simp [delete_selected, h, Nat.pos_iff_ne_zero.mp h]
  · intro h
    refine ⟨?_, ?_, ?_, ?_, ?_, ?_⟩
    · simp [delete_selected, h]
    · rintro rfl
      refine ⟨by simp [delete_selected, h], ?_⟩
      simp [delete_selected, h, lookup_delKey_self]
    · rintro rfl
      refine ⟨by simp [delete_selected, h], ?_⟩
      simp [delete_selected, h, lookup_delKey_self]
    · rintro rfl
      refine ⟨by simp [delete_selected, h], ?_⟩
      simp [delete_selected, h, lookup_delKey_self]
    · rintro rfl
      refine ⟨by simp [delete_selected, h], ?_⟩
      simp [delete_selected, h, lookup_delKey_self]
    · rintro rfl
      refine ⟨by simp [delete_selected, h], ?_⟩
      simp [delete_selected, h, lookup_delKey_self]

/-- Store for the C7 witness: one used brand ("b1", referenced by a
perfume) and one unused brand ("b2"). -/
def c7App : AppData :=
  { perfumes := [{ id := "p1", name := "x", brand_id := "b1" }],
    brands_map := [("b1", "Dior"), ("b2", "Unused")] }

/-- Witness for C7: deleting the referenced brand is rejected with its
usage count; deleting the unreferenced one removes the entry. -/
theorem c7_witness :
    0 < count_usage c7App "brands" "b1"
      ∧ delete_selected c7App "brands" ["b1"]
          = (c7App, some [(get_item_name c7App "brands" "b1", count_usage c7App "brands" "b1")])
      ∧ count_usage c7App "brands" "b2" = 0
      ∧ (delete_selected c7App "brands" ["b2"]).1.brands_map.lookup "b2" = none :=
  ⟨by decide,
    (c7_delete_if_unused c7App "brands" "b1").1 (by decide),
    by decide,
    (((c7_delete_if_unused c7App "brands" "b2").2.1 (by decide)).2.1 rfl).2⟩

/-- The composite reference rewrite that `_merge_selected`'s loop
performs: every id in `ids` becomes `target`, everything else is kept. -/
def rwAll (ids : List String) (target : String) (x : String) : String :=
  if x ∈ ids then target else x

theorem rwAll_nil (target x : String) : rwAll [] target x = x := by
  simp [rwAll]

theorem rwAll_step (sid target : String) (rest : List String) (x : String) :
    rwAll rest target (if x = sid then target else x) = rwAll (sid :: rest) target x := by
  by_cases hx : x = sid
  · subst hx
    simp [rwAll]
  · simp [rwAll, hx, List.mem_cons]

/-- One loop iteration on a duplicate-free list-valued reference field
equals the unconditional rewrite-then-dedup. -/
theorem stepList_eq (target sid : String) (l : List String) (hl : l.Nodup) :
    (if l.contains sid then pyDedup (l.map (fun t => if t = sid then target else t)) else l)
      = pyDedup (l.map (fun t => if t = sid then target else t)) := by
  by_cases hc : l.contains sid
  · rw [if_pos hc]
  · rw [if_neg hc]
    have hmap : l.map (fun t => if t = sid then target else t) = l := by
      have hne : ∀ a ∈ l, (fun t => if t = sid then target else t) a = id a := by
        intro a ha
        have has : a ≠ sid := by
          intro hha
          have hmem : sid ∈ l := hha ▸ ha
          have hcon : l.contains sid = true := by simpa using hmem
          exact hc hcon
        simp [has]
      rw [List.map_congr_left hne, List.map_id]
    rw [hmap, pyDedup_eq_self l hl]

theorem tagStep_comp (target sid : String) (rest : List String) (l : List String)
    (hl : l.Nodup) :
    pyDedup (((if l.contains sid
          then pyDedup (l.map (fun t => if t = sid then target else t))
          else l)).map (rwAll rest target))
      = pyDedup (l.map (rwAll (sid :: rest) target)) := by
  rw [stepList_eq target sid l hl, pyDedup_map_pyDedup, List.map_map]
  congr 1
  exact List.map_congr_left (fun x _ => rwAll_step sid target rest x)

theorem keyFilter_collapse (sid : String) (rest : List String) (a : String) :
    (decide (a ≠ sid) && decide (¬ a ∈ rest)) = decide (¬ a ∈ sid :: rest) := by
  by_cases h1 : a = sid <;> by_cases h2 : a ∈ rest <;> simp [h1, h2, List.mem_cons]

theorem keyFilter_collapse2 (sid : String) (rest : List String) (a : String) :
    (decide (¬ a ∈ rest) && decide (a ≠ sid)) = decide (¬ a ∈ sid :: rest) := by
  by_cases h1 : a = sid <;> by_cases h2 : a ∈ rest <;> simp [h1, h2, List.mem_cons]

theorem mergeFold_tags (target : String) :
    ∀ (nonT : List String) (app : AppData), target ∉ nonT →
      (∀ p ∈ app.perfumes, p.tag_ids.Nodup) →
      nonT.foldl (fun acc sid => if sid = target then acc else mergeStep "tags" target sid acc) app
        = { app with
            perfumes := app.perfumes.map (fun p =>
              { p with tag_ids := pyDedup (p.tag_ids.map (rwAll nonT target)) }),
            tags_map := app.tags_map.filter (fun e => decide (¬ e.1 ∈ nonT)) } := by
  intro nonT
  induction nonT with
  | nil =>
    intro app _ hnd
    simp only [List.foldl_nil]
    have hperf : app.perfumes.map (fun p =>
        { p with tag_ids := pyDedup (p.tag_ids.map (rwAll [] target)) }) = app.perfumes := by
      have h : ∀ p ∈ app.perfumes,
          (fun p => { p with tag_ids := pyDedup (p.tag_ids.map (rwAll [] target)) }) p
            = id p := by
        intro p hp
        have hm : p.tag_ids.map (rwAll [] target) = p.tag_ids := by
          have h0 : ∀ a ∈ p.tag_ids, rwAll [] target a = id a :=
            fun a _ => rwAll_nil target a
          rw [List.map_congr_left h0, List.map_id]
        simp only [hm, pyDedup_eq_self _ (hnd p hp), id]
      rw [List.map_congr_left h, List.map_id]
    have htm : app.tags_map.filter (fun e => decide (¬ e.1 ∈ ([] : List String)))
        = app.tags_map := by
      apply List.filter_eq_self.mpr
      intro a _
      simp
    rw [hperf, htm]
  | cons sid rest ih =>
    intro app ht hnd
    have h1 : ¬ (sid = target) := by
      intro h
      exact ht (by simp [h])
    have ht' : target ∉ rest := fun h => ht (List.mem_cons_of_mem _ h)
    simp only [List.foldl_cons]
    rw [if_neg h1]
    have hm : mergeStep "tags" target sid app
        = { app with
            perfumes := app.perfumes.map (fun p =>
              if p.tag_ids.contains sid then
                { p with tag_ids := pyDedup (p.tag_ids.map (fun t => if t = sid then target else t)) }
              else p),
            tags_map := delKey app.tags_map sid } := rfl
    rw [hm]
    have hnd' : ∀ p ∈ (app.perfumes.map (fun p =>
        if p.tag_ids.contains sid then
          { p with tag_ids := pyDedup (p.tag_ids.map (fun t => if t = sid then target else t)) }
        else p)), p.tag_ids.Nodup := by
      intro p hp
      obtain ⟨q, hq, rfl⟩ := List.mem_map.mp hp
      by_cases hc : q.tag_ids.contains sid
      · have hc' : sid ∈ q.tag_ids := by simpa using hc
        simp [hc', pyDedup_nodup]
      · have hc' : ¬ sid ∈ q.tag_ids := by simpa using hc
        simp [hc', hnd q hq]
    rw [ih _ ht' hnd']
    have hperf : (app.perfumes.map (fun p =>
        if p.tag_ids.contains sid then
          { p with tag_ids := pyDedup (p.tag_ids.map (fun t => if t = sid then target else t)) }
        else p)).map (fun p => { p with tag_ids := pyDedup (p.tag_ids.map (rwAll rest target)) })
        = app.perfumes.map (fun p =>
            { p with tag_ids := pyDedup (p.tag_ids.map (rwAll (sid :: rest) target)) }) := by
      rw [List.map_map]
      apply List.map_congr_left
      intro p hp
      have hcomp := tagStep_comp target sid rest p.tag_ids (hnd p hp)
      by_cases hc : p.tag_ids.contains sid
      · rw [if_pos hc] at hcomp
        simp only [Function.comp, if_pos hc]
        exact congrArg (fun l => { p with tag_ids := l }) hcomp
      · rw [if_neg hc] at hcomp
        simp only [Function.comp, if_neg hc]
        exact congrArg (fun l => { p with tag_ids := l }) hcomp
    have htm : (delKey app.tags_map sid).filter (fun e => decide (¬ e.1 ∈ rest))
        = app.tags_map.filter (fun e => decide (¬ e.1 ∈ sid :: rest)) := by
      unfold delKey
      rw [List.filter_filter]
      apply List.filter_congr
      intro e _
      exact keyFilter_collapse2 sid rest e.1
    rw [hperf, htm]

theorem mergeFold_outlets (target : String) :
    ∀ (nonT : List String) (app : AppData), target ∉ nonT →
      (∀ p ∈ app.perfumes, p.outlet_ids.Nodup) →
      nonT.foldl (fun acc sid => if sid = target then acc else mergeStep "outlets" target sid acc) app
        = { app with
            perfumes := app.perfumes.map (fun p =>
              { p with outlet_ids := pyDedup (p.outlet_ids.map (rwAll nonT target)) }),
            outlets_map := app.outlets_map.filter (fun e => decide (¬ e.1 ∈ nonT)) } := by
  intro nonT
  induction nonT with
  | nil =>
    intro app _ hnd
    simp only [List.foldl_nil]
    have hperf : app.perfumes.map (fun p =>
        { p with outlet_ids := pyDedup (p.outlet_ids.map (rwAll [] target)) }) = app.perfumes := by
      have h : ∀ p ∈ app.perfumes,
          (fun p => { p with outlet_ids := pyDedup (p.outlet_ids.map (rwAll [] target)) }) p
            = id p := by
        intro p hp
        have hm : p.outlet_ids.map (rwAll [] target) = p.outlet_ids := by
          have h0 : ∀ a ∈ p.outlet_ids, rwAll [] target a = id a :=
            fun a _ => rwAll_nil target a
          rw [List.map_congr_left h0, List.map_id]
        simp only [hm, pyDedup_eq_self _ (hnd p hp), id]
      rw [List.map_congr_left h, List.map_id]
    have htm : app.outlets_map.filter (fun e => decide (¬ e.1 ∈ ([] : List String)))
        = app.outlets_map := by
      apply List.filter_eq_self.mpr
      intro a _
      simp
    rw [hperf, htm]
  | cons sid rest ih =>
    intro app ht hnd
    have h1 : ¬ (sid = target) := by
      intro h
      exact ht (by simp [h])
    have ht' : target ∉ rest := fun h => ht (List.mem_cons_of_mem _ h)
    simp only [List.foldl_cons]
    rw [if_neg h1]
    have hm : mergeStep "outlets" target sid app
        = { app with
            perfumes := app.perfumes.map (fun p =>
              if p.outlet_ids.contains sid then
                { p with outlet_ids := pyDedup (p.outlet_ids.map (fun t => if t = sid then target else t)) }
              else p),
            outlets_map := delKey app.outlets_map sid } := rfl
    rw [hm]
    have hnd' : ∀ p ∈ (app.perfumes.map (fun p =>
        if p.outlet_ids.contains sid then
          { p with outlet_ids := pyDedup (p.outlet_ids.map (fun t => if t = sid then target else t)) }
        else p)), p.outlet_ids.Nodup := by
      intro p hp
      obtain ⟨q, hq, rfl⟩ := List.mem_map.mp hp
      by_cases hc : q.outlet_ids.contains sid
      · have hc' : sid ∈ q.outlet_ids := by simpa using hc
        simp [hc', pyDedup_nodup]
      · have hc' : ¬ sid ∈ q.outlet_ids := by simpa using hc
        simp [hc', hnd q hq]
    rw [ih _ ht' hnd']
    have hperf : (app.perfumes.map (fun p =>
        if p.outlet_ids.contains sid then
          { p with outlet_ids := pyDedup (p.outlet_ids.map (fun t => if t = sid then target else t)) }
        else p)).map (fun p => { p with outlet_ids := pyDedup (p.outlet_ids.map (rwAll rest target)) })
        = app.perfumes.map (fun p =>
            { p with outlet_ids := pyDedup (p.outlet_ids.map (rwAll (sid :: rest) target)) }) := by
      rw [List.map_map]
      apply List.map_congr_left
      intro p hp
      have hcomp := tagStep_comp target sid rest p.outlet_ids (hnd p hp)
      by_cases hc : p.outlet_ids.contains sid
      · rw [if_pos hc] at hcomp
        simp only [Function.comp, if_pos hc]
        exact congrArg (fun l => { p with outlet_ids := l }) hcomp
      · rw [if_neg hc] at hcomp
        simp only [Function.comp, if_neg hc]
        exact congrArg (fun l => { p with outlet_ids := l }) hcomp
    have htm : (delKey app.outlets_map sid).filter (fun e => decide (¬ e.1 ∈ rest))
        = app.outlets_map.filter (fun e => decide (¬ e.1 ∈ sid :: rest)) := by
      unfold delKey
      rw [List.filter_filter]
      apply List.filter_congr
      intro e _
      exact keyFilter_collapse2 sid rest e.1
    rw [hperf, htm]

theorem mergeFold_brands (target : String) :
    ∀ (nonT : List String) (app : AppData), target ∉ nonT →
      nonT.foldl (fun acc sid => if sid = target then acc else mergeStep "brands" target sid acc) app
        = { app with
            perfumes := app.perfumes.map (fun p =>
              { p with brand_id := rwAll nonT target p.brand_id }),
            brands_map := app.brands_map.filter (fun e => decide (¬ e.1 ∈ nonT)) } := by
  intro nonT
  induction nonT with
  | nil =>
    intro app _
    simp only [List.foldl_nil]
    have hperf : app.perfumes.map (fun p =>
        { p with brand_id := rwAll [] target p.brand_id }) = app.perfumes := by
      have h : ∀ p ∈ app.perfumes,
          (fun p => { p with brand_id := rwAll [] target p.brand_id }) p = id p := by
        intro p _
        simp only [rwAll_nil, id]
      rw [List.map_congr_left h, List.map_id]
    have htm : app.brands_map.filter (fun e => decide (¬ e.1 ∈ ([] : List String)))
        = app.brands_map := by
      apply List.filter_eq_self.mpr
      intro a _
      simp
    rw [hperf, htm]
  | cons sid rest ih =>
    intro app ht
    have h1 : ¬ (sid = target) := by
      intro h
      exact ht (by simp [h])
    have ht' : target ∉ rest := fun h => ht (List.mem_cons_of_mem _ h)
    simp only [List.foldl_cons]
    rw [if_neg h1]
    have hm : mergeStep "brands" target sid app
        = { app with
            perfumes := app.perfumes.map (fun p =>
              if p.brand_id = sid then { p with brand_id := target } else p),
            brands_map := delKey app.brands_map sid } := rfl
    rw [hm, ih _ ht']
    have hperf : (app.perfumes.map (fun p =>
        if p.brand_id = sid then { p with brand_id := target } else p)).map
          (fun p => { p with brand_id := rwAll rest target p.brand_id })
        = app.perfumes.map (fun p =>
            { p with brand_id := rwAll (sid :: rest) target p.brand_id }) := by
      rw [List.map_map]
      apply List.map_congr_left
      intro p _
      have h := rwAll_step sid target rest p.brand_id
      by_cases hc : p.brand_id = sid
      · rw [if_pos hc] at h
        simp only [Function.comp, if_pos hc]
        exact congrArg (fun v => { p with brand_id := v }) h
      · rw [if_neg hc] at h
        simp only [Function.comp, if_neg hc]
        exact congrArg (fun v => { p with brand_id := v }) h
    have htm : (delKey app.brands_map sid).filter (fun e => decide (¬ e.1 ∈ rest))
        = app.brands_map.filter (fun e => decide (¬ e.1 ∈ sid :: rest)) := by
      unfold delKey
      rw [List.filter_filter]
      apply List.filter_congr
      intro e _
      exact keyFilter_collapse2 sid rest e.1
    rw [hperf, htm]

theorem mergeFold_concentrations (target : String) :
    ∀ (nonT : List String) (app : AppData), target ∉ nonT →
      nonT.foldl
          (fun acc sid => if sid = target then acc else mergeStep "concentrations" target sid acc) app
        = { app with
            perfumes := app.perfumes.map (fun p =>
              { p with concentration_id := rwAll nonT target p.concentration_id }),
            concentrations_map :=
              app.concentrations_map.filter (fun e => decide (¬ e.1 ∈ nonT)) } := by
  intro nonT
  induction nonT with
  | nil =>
    intro app _
    simp only [List.foldl_nil]
    have hperf : app.perfumes.map (fun p =>
        { p with concentration_id := rwAll [] target p.concentration_id }) = app.perfumes := by
      have h : ∀ p ∈ app.perfumes,
          (fun p => { p with concentration_id := rwAll [] target p.concentration_id }) p = id p := by
        intro p _
        simp only [rwAll_nil, id]
      rw [List.map_congr_left h, List.map_id]
    have htm : app.concentrations_map.filter (fun e => decide (¬ e.1 ∈ ([] : List String)))
        = app.concentrations_map := by
      apply List.filter_eq_self.mpr
      intro a _
      simp
    rw [hperf, htm]
  | cons sid rest ih =>
    intro app ht
    have h1 : ¬ (sid = target) := by
      intro h
      exact ht (by simp [h])
    have ht' : target ∉ rest := fun h => ht (List.mem_cons_of_mem _ h)
    simp only [List.foldl_cons]
    rw [if_neg h1]
    have hm : mergeStep "concentrations" target sid app
        = { app with
            perfumes := app.perfumes.map (fun p =>
              if p.concentration_id = sid then { p with concentration_id := target } else p),
            concentrations_map := delKey app.concentrations_map sid } := rfl
    rw [hm, ih _ ht']
    have hperf : (app.perfumes.map (fun p =>
        if p.concentration_id = sid then { p with concentration_id := target } else p)).map
          (fun p => { p with concentration_id := rwAll rest target p.concentration_id })
        = app.perfumes.map (fun p =>
            { p with concentration_id := rwAll (sid :: rest) target p.concentration_id }) := by
      rw [List.map_map]
      apply List.map_congr_left
      intro p _
      have h := rwAll_step sid target rest p.concentration_id
      by_cases hc : p.concentration_id = sid
      · rw [if_pos hc] at h
        simp only [Function.comp, if_pos hc]
        exact congrArg (fun v => { p with concentration_id := v }) h
      · rw [if_neg hc] at h
        simp only [Function.comp, if_neg hc]
        exact congrArg (fun v => { p with concentration_id := v }) h
    have htm : (delKey app.concentrations_map sid).filter (fun e => decide (¬ e.1 ∈ rest))
        = app.concentrations_map.filter (fun e => decide (¬ e.1 ∈ sid :: rest)) := by
      unfold delKey
      rw [List.filter_filter]
      apply List.filter_congr
      intro e _
      exact keyFilter_collapse2 sid rest e.1
    rw [hperf, htm]

theorem mergeFold_purchase_types (target : String) :
    ∀ (nonT : List String) (app : AppData), target ∉ nonT →
      nonT.foldl
          (fun acc sid => if sid = target then acc else mergeStep "purchase_types" target sid acc) app
        = { app with
            perfumes := app.perfumes.map (fun p =>
              { p with events := p.events.map (fun e =>
                  { e with purchase_type_id := rwAll nonT target e.purchase_type_id }) }),
            purchase_types_map :=
              app.purchase_types_map.filter (fun e => decide (¬ e.1 ∈ nonT)) } := by
  intro nonT
  induction nonT with
  | nil =>
    intro app _
    simp only [List.foldl_nil]
    have hperf : app.perfumes.map (fun p =>
        { p with events := p.events.map (fun e =>
            { e with purchase_type_id := rwAll [] target e.purchase_type_id }) }) = app.perfumes := by
      have h : ∀ p ∈ app.perfumes,
          (fun p => { p with events := p.events.map (fun e =>
              { e with purchase_type_id := rwAll [] target e.purchase_type_id }) }) p = id p := by
        intro p _
        have hev : p.events.map (fun e =>
            { e with purchase_type_id := rwAll [] target e.purchase_type_id }) = p.events := by
          have h0 : ∀ e ∈ p.events,
              (fun e => { e with purchase_type_id := rwAll [] target e.purchase_type_id }) e
                = id e := by
            intro e _
            simp only [rwAll_nil, id]
          rw [List.map_congr_left h0, List.map_id]
        simp only [hev, id]
      rw [List.map_congr_left h, List.map_id]
    have htm : app.purchase_types_map.filter (fun e => decide (¬ e.1 ∈ ([] : List String)))
        = app.purchase_types_map := by
      apply List.filter_eq_self.mpr
      intro a _
      simp
    rw [hperf, htm]
  | cons sid rest ih =>
    intro app ht
    have h1 : ¬ (sid = target) := by
      intro h
      exact ht (by simp [h])
    have ht' : target ∉ rest := fun h => ht (List.mem_cons_of_mem _ h)
    simp only [List.foldl_cons]
    rw [if_neg h1]
    have hm : mergeStep "purchase_types" target sid app
        = { app with
            perfumes := app.perfumes.map (fun p =>
              { p with events := p.events.map (fun e =>
                  if e.purchase_type_id = sid then { e with purchase_type_id := target } else e) }),
            purchase_types_map := delKey app.purchase_types_map sid } := rfl
    rw [hm, ih _ ht']
    have hperf : (app.perfumes.map (fun (p : Perfume) =>
        { p with events := p.events.map (fun (e : Event) =>
            if e.purchase_type_id = sid then { e with purchase_type_id := target } else e) })).map
          (fun (p : Perfume) => { p with events := p.events.map (fun (e : Event) =>
              { e with purchase_type_id := rwAll rest target e.purchase_type_id }) })
        = app.perfumes.map (fun (p : Perfume) =>
            { p with events := p.events.map (fun (e : Event) =>
                { e with purchase_type_id := rwAll (sid :: rest) target e.purchase_type_id }) }) := by
      rw [List.map_map]
      apply List.map_congr_left
      intro p _
      have hev : (p.events.map (fun (e : Event) =>
          if e.purchase_type_id = sid then { e with purchase_type_id := target } else e)).map
            (fun (e : Event) => { e with purchase_type_id := rwAll rest target e.purchase_type_id })
          = p.events.map (fun (e : Event) =>
              { e with purchase_type_id := rwAll (sid :: rest) target e.purchase_type_id }) := by
        rw [List.map_map]
        apply List.map_congr_left
        intro e _
        have h := rwAll_step sid target rest e.purchase_type_id
        by_cases hc : e.purchase_type_id = sid
        · rw [if_pos hc] at h
          simp only [Function.comp, if_pos hc]
          exact congrArg (fun v => { e with purchase_type_id := v }) h
        · rw [if_neg hc] at h
          simp only [Function.comp, if_neg hc]
          exact congrArg (fun v => { e with purchase_type_id := v }) h
      simp only [Function.comp]
      rw [hev]
    have htm : (delKey app.purchase_types_map sid).filter (fun e => decide (¬ e.1 ∈ rest))
        = app.purchase_types_map.filter (fun e => decide (¬ e.1 ∈ sid :: rest)) := by
      unfold delKey
      rw [List.filter_filter]
      apply List.filter_congr
      intro e _
      exact keyFilter_collapse2 sid rest e.1
    rw [hperf, htm]

theorem mem_target_pyDedup (nonT : List String) (target s : String) (l : List String)
    (hs : s ∈ nonT) (hl : s ∈ l) : target ∈ pyDedup (l.map (rwAll nonT target)) := by
  rw [mem_pyDedup]
  exact List.mem_map.mpr ⟨s, hl, by simp [rwAll, hs]⟩

theorem not_mem_pyDedup_rwAll (nonT : List String) (target s : String) (l : List String)
    (ht : target ∉ nonT) (hs : s ∈ nonT) :
    s ∉ pyDedup (l.map (rwAll nonT target)) := by
  rw [mem_pyDedup]
  intro hmem
  obtain ⟨x, hx, hxe⟩ := List.mem_map.mp hmem
  by_cases hxm : x ∈ nonT
  · rw [rwAll, if_pos hxm] at hxe
    exact ht (hxe ▸ hs)
  · rw [rwAll, if_neg hxm] at hxe
    exact hxm (hxe ▸ hs)

theorem rwAll_not_mem (nonT : List String) (target x : String) (ht : target ∉ nonT) :
    rwAll nonT target x ∉ nonT := by
  unfold rwAll
  by_cases h : x ∈ nonT <;> simp [h, ht]

theorem lookup_merged_target {α : Type} (m : List (String × α)) (nonT : List String)
    (target : String) (v : α) (ht : target ∉ nonT) :
    ((setVal m target v).filter (fun e => decide (¬ e.1 ∈ nonT))).lookup target = some v := by
  have h1 := lookup_keyFilter_of_pred (setVal m target v)
    (fun x => decide (¬ x ∈ nonT)) target (by simp [ht])
  rw [h1, lookup_setVal_self]

theorem lookup_merged_removed {α : Type} (m : List (String × α)) (nonT : List String)
    (s : String) (hs : s ∈ nonT) :
    (m.filter (fun e => decide (¬ e.1 ∈ nonT))).lookup s = none :=
  lookup_keyFilter_of_not m (fun x => decide (¬ x ∈ nonT)) s (by simp [hs])

theorem merge_tags_spec (app : AppData) (target : String) (nonT : List String) (keep : String)
    (hne : nonT ≠ []) (ht : target ∉ nonT)
    (htag : ∀ p ∈ app.perfumes, p.tag_ids.Nodup) :
    (merge_selected app "tags" (target :: nonT) keep).perfumes
        = app.perfumes.map (fun p =>
            { p with tag_ids := pyDedup (p.tag_ids.map (rwAll nonT target)) })
      ∧ (merge_selected app "tags" (target :: nonT) keep).tags_map
        = (setVal app.tags_map target keep).filter (fun e => decide (¬ e.1 ∈ nonT)) := by
  obtain ⟨n0, nrest, rfl⟩ : ∃ a l, nonT = a :: l := by
    cases nonT with
    | nil => exact absurd rfl hne
    | cons a l => exact ⟨a, l, rfl⟩
  have hred : merge_selected app "tags" (target :: n0 :: nrest) keep
      = (target :: n0 :: nrest).foldl
          (fun acc sid => if sid = target then acc else mergeStep "tags" target sid acc)
          { app with tags_map := setVal app.tags_map target keep } := rfl
  rw [hred, List.foldl_cons, if_pos rfl]
  rw [mergeFold_tags target (n0 :: nrest)
    { app with tags_map := setVal app.tags_map target keep } ht htag]
  exact ⟨rfl, rfl⟩

theorem merge_outlets_spec (app : AppData) (target : String) (nonT : List String) (keep : String)
    (hne : nonT ≠ []) (ht : target ∉ nonT)
    (hout : ∀ p ∈ app.perfumes, p.outlet_ids.Nodup) :
    (merge_selected app "outlets" (target :: nonT) keep).perfumes
        = app.perfumes.map (fun p =>
            { p with outlet_ids := pyDedup (p.outlet_ids.map (rwAll nonT target)) })
      ∧ (merge_selected app "outlets" (target :: nonT) keep).outlets_map
        = (setVal app.outlets_map target ⟨keep, ""⟩).filter (fun e => decide (¬ e.1 ∈ nonT)) := by
  obtain ⟨n0, nrest, rfl⟩ : ∃ a l, nonT = a :: l := by
    cases nonT with
    | nil => exact absurd rfl hne
    | cons a l => exact ⟨a, l, rfl⟩
  have hred : merge_selected app "outlets" (target :: n0 :: nrest) keep
      = (target :: n0 :: nrest).foldl
          (fun acc sid => if sid = target then acc else mergeStep "outlets" target sid acc)
          { app with outlets_map := setVal app.outlets_map target ⟨keep, ""⟩ } := rfl
  rw [hred, List.foldl_cons, if_pos rfl]
  rw [mergeFold_outlets target (n0 :: nrest)
    { app with outlets_map := setVal app.outlets_map target ⟨keep, ""⟩ } ht hout]
  exact ⟨rfl, rfl⟩

theorem merge_brands_spec (app : AppData) (target : String) (nonT : List String) (keep : String)
    (hne : nonT ≠ []) (ht : target ∉ nonT) :
    (merge_selected app "brands" (target :: nonT) keep).perfumes
        = app.perfumes.map (fun p => { p with brand_id := rwAll nonT target p.brand_id })
      ∧ (merge_selected app "brands" (target :: nonT) keep).brands_map
        = (setVal app.brands_map target keep).filter (fun e => decide (¬ e.1 ∈ nonT)) := by
  obtain ⟨n0, nrest, rfl⟩ : ∃ a l, nonT = a :: l := by
    cases nonT with
    | nil => exact absurd rfl hne
    | cons a l => exact ⟨a, l, rfl⟩
  have hred : merge_selected app "brands" (target :: n0 :: nrest) keep
      = (target :: n0 :: nrest).foldl
          (fun acc sid => if sid = target then acc else mergeStep "brands" target sid acc)
          { app with brands_map := setVal app.brands_map target keep } := rfl
  rw [hred, List.foldl_cons, if_pos rfl]
  rw [mergeFold_brands target (n0 :: nrest)
    { app with brands_map := setVal app.brands_map target keep } ht]
  exact ⟨rfl, rfl⟩

theorem merge_concentrations_spec (app : AppData) (target : String) (nonT : List String)
    (keep : String) (hne : nonT ≠ []) (ht : target ∉ nonT) :
    (merge_selected app "concentrations" (target :: nonT) keep).perfumes
        = app.perfumes.map (fun p =>
            { p with concentration_id := rwAll nonT target p.concentration_id })
      ∧ (merge_selected app "concentrations" (target :: nonT) keep).concentrations_map
        = (setVal app.concentrations_map target keep).filter (fun e => decide (¬ e.1 ∈ nonT)) := by
  obtain ⟨n0, nrest, rfl⟩ : ∃ a l, nonT = a :: l := by
    cases nonT with
    | nil => exact absurd rfl hne
    | cons a l => exact ⟨a, l, rfl⟩
  have hred : merge_selected app "concentrations" (target :: n0 :: nrest) keep
      = (target :: n0 :: nrest).foldl
          (fun acc sid => if sid = target then acc else mergeStep "concentrations" target sid acc)
          { app with concentrations_map := setVal app.concentrations_map target keep } := rfl
  rw [hred, List.foldl_cons, if_pos rfl]
  rw [mergeFold_concentrations target (n0 :: nrest)
    { app with concentrations_map := setVal app.concentrations_map target keep } ht]
  exact ⟨rfl, rfl⟩

theorem merge_purchase_types_spec (app : AppData) (target : String) (nonT : List String)
    (keep : String) (hne : nonT ≠ []) (ht : target ∉ nonT) :
    (merge_selected app "purchase_types" (target :: nonT) keep).perfumes
        = app.perfumes.map (fun (p : Perfume) =>
            { p with events := p.events.map (fun (e : Event) =>
                { e with purchase_type_id := rwAll nonT target e.purchase_type_id }) })
      ∧ (merge_selected app "purchase_types" (target :: nonT) keep).purchase_types_map
        = (setVal app.purchase_types_map target keep).filter (fun e => decide (¬ e.1 ∈ nonT)) := by
  obtain ⟨n0, nrest, rfl⟩ : ∃ a l, nonT = a :: l := by
    cases nonT with
    | nil => exact absurd rfl hne
    | cons a l => exact ⟨a, l, rfl⟩
  have hred : merge_selected app "purchase_types" (target :: n0 :: nrest) keep
      = (target :: n0 :: nrest).foldl
          (fun acc sid => if sid = target then acc else mergeStep "purchase_types" target sid acc)
          { app with purchase_types_map := setVal app.purchase_types_map target keep } := rfl
  rw [hred, List.foldl_cons, if_pos rfl]
  rw [mergeFold_purchase_types target (n0 :: nrest)
    { app with purchase_types_map := setVal app.purchase_types_map target keep } ht]
  exact ⟨rfl, rfl⟩

/-- C6: merging two or more ids (target = first id) rewrites every
perfume/event reference from the non-target ids to the target,
de-duplicates list-valued reference fields keeping first-seen order
(they equal the first-occurrence dedup of the rewritten list), stores
the kept value under the target id, and removes every non-target id
from the table, leaving no reference to a removed id — on each of the
five reference tables. -/
theorem c6_merge_integrity (app : AppData) (target : String) (nonT : List String)
    (keep : String) (hne : nonT ≠ []) (hnd : (target :: nonT).Nodup)
    (htag : ∀ p ∈ app.perfumes, p.tag_ids.Nodup)
    (hout : ∀ p ∈ app.perfumes, p.outlet_ids.Nodup) :
    ((merge_selected app "tags" (target :: nonT) keep).perfumes
        = app.perfumes.map (fun p =>
            { p with tag_ids := pyDedup (p.tag_ids.map (rwAll nonT target)) })
      ∧ (∀ p ∈ app.perfumes, ∀ s ∈ nonT, s ∈ p.tag_ids →
          target ∈ pyDedup (p.tag_ids.map (rwAll nonT target)))
      ∧ (∀ p' ∈ (merge_selected app "tags" (target :: nonT) keep).perfumes,
          p'.tag_ids.Nodup ∧ ∀ s ∈ nonT, s ∉ p'.tag_ids)
      ∧ (merge_selected app "tags" (target :: nonT) keep).tags_map.lookup target = some keep
      ∧ (∀ s ∈ nonT,
          (merge_selected app "tags" (target :: nonT) keep).tags_map.lookup s = none))
    ∧ ((merge_selected app "outlets" (target :: nonT) keep).perfumes
        = app.perfumes.map (fun p =>
            { p with outlet_ids := pyDedup (p.outlet_ids.map (rwAll nonT target)) })
      ∧ (∀ p ∈ app.perfumes, ∀ s ∈ nonT, s ∈ p.outlet_ids →
          target ∈ pyDedup (p.outlet_ids.map (rwAll nonT target)))
      ∧ (∀ p' ∈ (merge_selected app "outlets" (target :: nonT) keep).perfumes,
          p'.outlet_ids.Nodup ∧ ∀ s ∈ nonT, s ∉ p'.outlet_ids)
      ∧ (merge_selected app "outlets" (target :: nonT) keep).outlets_map.lookup target
          = some ⟨keep, ""⟩
      ∧ (∀ s ∈ nonT,
          (merge_selected app "outlets" (target :: nonT) keep).outlets_map.lookup s = none))
    ∧ ((merge_selected app "brands" (target :: nonT) keep).perfumes
        = app.perfumes.map (fun p => { p with brand_id := rwAll nonT target p.brand_id })
      ∧ (∀ p ∈ app.perfumes, p.brand_id ∈ nonT → rwAll nonT target p.brand_id = target)
      ∧ (∀ p' ∈ (merge_selected app "brands" (target :: nonT) keep).perfumes,
          p'.brand_id ∉ nonT)
      ∧ (merge_selected app "brands" (target :: nonT) keep).brands_map.lookup target = some keep
      ∧ (∀ s ∈ nonT,
          (merge_selected app "brands" (target :: nonT) keep).brands_map.lookup s = none))
    ∧ ((merge_selected app "concentrations" (target :: nonT) keep).perfumes
        = app.perfumes.map (fun p =>
            { p with concentration_id := rwAll nonT target p.concentration_id })
      ∧ (∀ p ∈ app.perfumes, p.concentration_id ∈ nonT →
          rwAll nonT target p.concentration_id = target)
      ∧ (∀ p' ∈ (merge_selected app "concentrations" (target :: nonT) keep).perfumes,
          p'.concentration_id ∉ nonT)
      ∧ (merge_selected app "concentrations" (target :: nonT) keep).concentrations_map.lookup
          target = some keep
      ∧ (∀ s ∈ nonT,
          (merge_selected app "concentrations" (target :: nonT) keep).concentrations_map.lookup
            s = none))
    ∧ ((merge_selected app "purchase_types" (target :: nonT) keep).perfumes
        = app.perfumes.map (fun (p : Perfume) =>
            { p with events := p.events.map (fun (e : Event) =>
                { e with purchase_type_id := rwAll nonT target e.purchase_type_id }) })
      ∧ (∀ p ∈ app.perfumes, ∀ ev ∈ p.events, ev.purchase_type_id ∈ nonT →
          rwAll nonT target ev.purchase_type_id = target)
      ∧ (∀ p' ∈ (merge_selected app "purchase_types" (target :: nonT) keep).perfumes,
          ∀ ev ∈ p'.events, ev.purchase_type_id ∉ nonT)
      ∧ (merge_selected app "purchase_types" (target :: nonT) keep).purchase_types_map.lookup
          target = some keep
      ∧ (∀ s ∈ nonT,
          (merge_selected app "purchase_types" (target :: nonT) keep).purchase_types_map.lookup
            s = none)) := by
  have ht : target ∉ nonT := (List.nodup_cons.mp hnd).1
  refine ⟨?_, ?_, ?_, ?_, ?_⟩
  · obtain ⟨hp, htm⟩ := merge_tags_spec app target nonT keep hne ht htag
    refine ⟨hp, ?_, ?_, ?_, ?_⟩
    · intro p _ s hs hsl
      exact mem_target_pyDedup nonT target s p.tag_ids hs hsl
    · intro p' hp'
      rw [hp] at hp'
      obtain ⟨q, _, rfl⟩ := List.mem_map.mp hp'
      exact ⟨pyDedup_nodup _, fun s hs => not_mem_pyDedup_rwAll nonT target s q.tag_ids ht hs⟩
    · rw [htm]
      exact lookup_merged_target app.tags_map nonT target keep ht
    · intro s hs
      rw [htm]
      exact lookup_merged_removed _ nonT s hs
  · obtain ⟨hp, htm⟩ := merge_outlets_spec app target nonT keep hne ht hout
    refine ⟨hp, ?_, ?_, ?_, ?_⟩
    · intro p _ s hs hsl
      exact mem_target_pyDedup nonT target s p.outlet_ids hs hsl
    · intro p' hp'
      rw [hp] at hp'
      obtain ⟨q, _, rfl⟩ := List.mem_map.mp hp'
      exact ⟨pyDedup_nodup _, fun s hs => not_mem_pyDedup_rwAll nonT target s q.outlet_ids ht hs⟩
    · rw [htm]
      exact lookup_merged_target app.outlets_map nonT target ⟨keep, ""⟩ ht
    · intro s hs
      rw [htm]
      exact lookup_merged_removed _ nonT s hs
  · obtain ⟨hp, htm⟩ := merge_brands_spec app target nonT keep hne ht
    refine ⟨hp, ?_, ?_, ?_, ?_⟩
    · intro p _ hmem
      simp [rwAll, hmem]
    · intro p' hp'
      rw [hp] at hp'
      obtain ⟨q, _, rfl⟩ := List.mem_map.mp hp'
      exact rwAll_not_mem nonT target q.brand_id ht
    · rw [htm]
      exact lookup_merged_target app.brands_map nonT target keep ht
    · intro s hs
      rw [htm]
      exact lookup_merged_removed _ nonT s hs
  · obtain ⟨hp, htm⟩ := merge_concentrations_spec app target nonT keep hne ht
    refine ⟨hp, ?_, ?_, ?_, ?_⟩
    · intro p _ hmem
      simp [rwAll, hmem]
    · intro p' hp'
      rw [hp] at hp'
      obtain ⟨q, _, rfl⟩ := List.mem_map.mp hp'
      exact rwAll_not_mem nonT target q.concentration_id ht
    · rw [htm]
      exact lookup_merged_target app.concentrations_map nonT target keep ht
    · intro s hs
      rw [htm]
      exact lookup_merged_removed _ nonT s hs
  · obtain ⟨hp, htm⟩ := merge_purchase_types_spec app target nonT keep hne ht
    refine ⟨hp, ?_, ?_, ?_, ?_⟩
    · intro p _ ev _ hmem
      simp [rwAll, hmem]
    · intro p' hp' ev hev
      rw [hp] at hp'
      obtain ⟨q, _, rfl⟩ := List.mem_map.mp hp'
      obtain ⟨e0, _, rfl⟩ := List.mem_map.mp hev
      exact rwAll_not_mem nonT target e0.purchase_type_id ht
    · rw [htm]
      exact lookup_merged_target app.purchase_types_map nonT target keep ht
    · intro s hs
      rw [htm]
      exact lookup_merged_removed _ nonT s hs

/-- Store for the C6 witness: two perfumes on two brand ids about to be
merged, mirroring the spec's `merge([idA, idB], "Chanel")` example. -/
def c6App : AppData :=
  { perfumes := [
      { id := "p1", name := "No.5", brand_id := "idA" },
      { id := "p2", name := "No.9", brand_id := "idB" }],
    brands_map := [("idA", "Chanel A"), ("idB", "Chanel B")] }

/-- Witness for C6 on the brands table: after the merge both perfumes
carry the target id, the table holds "Chanel" under the target, and the
merged-away id resolves to nothing. -/
theorem c6_witness :
    (["idB"] : List String) ≠ []
      ∧ ("idA" :: ["idB"]).Nodup
      ∧ (merge_selected c6App "brands" ["idA", "idB"] "Chanel").perfumes
          = c6App.perfumes.map (fun p => { p with brand_id := rwAll ["idB"] "idA" p.brand_id })
      ∧ (merge_selected c6App "brands" ["idA", "idB"] "Chanel").brands_map.lookup "idA"
          = some "Chanel"
      ∧ (merge_selected c6App "brands" ["idA", "idB"] "Chanel").brands_map.lookup "idB"
          = none := by
  have h := c6_merge_integrity c6App "idA" ["idB"] "Chanel" (by decide) (by decide)
    (by decide) (by decide)
  exact ⟨by decide, by decide, h.2.2.1.1, h.2.2.1.2.2.2.1,
    h.2.2.1.2.2.2.2 "idB" (by decide)⟩
